import Mathlib

/-!
Verification development for the Datalysis python backend
(`python_backend/eda_engine.py`, `python_backend/enhanced_data_cleaner.py`,
`python_backend/data_processor.py`).

The Python code is shallowly embedded: pandas `DataFrame`s become an explicit
column-major `Frame` of rational/string cells, float arithmetic becomes exact
rational arithmetic (all comparisons performed by the code on the values in
scope are exact in ℚ as well), and Python exceptions become `Option`/`Except`
results.
-/

namespace Datalysis

/-- `EDAType` enumeration from `eda_engine.py`. -/
inductive EDAType where
  | BASIC
  | COMPLEX
  | TEXTUAL
  | GEOSPATIAL
  | TIMESERIES
deriving DecidableEq, Repr

/-- `DatasetCharacteristics` dataclass from `eda_engine.py`.
Counts are naturals, percentages and the complexity score are rationals
(the Python floats on these fields arise from exact small-denominator
arithmetic in the code under verification). -/
structure DatasetCharacteristics where
  rows : ℕ
  columns : ℕ
  numeric_columns : ℕ
  categorical_columns : ℕ
  text_columns : ℕ
  datetime_columns : ℕ
  geospatial_columns : ℕ
  high_cardinality_columns : ℕ
  missing_percentage : ℚ
  duplicate_percentage : ℚ
  is_time_series : Bool
  is_high_dimensional : Bool
  is_imbalanced : Bool
  has_target_variable : Bool
  complexity_score : ℚ
deriving DecidableEq, Repr

/-- `_calculate_complexity_score` from `eda_engine.py` (lines 174-217),
transcribed addend by addend.  `min score 100` is the final clamp. -/
def calculate_complexity_score (rows columns numeric_cols categorical_cols
    text_cols high_cardinality_cols : ℕ) (is_time_series : Bool)
    (geospatial_cols : ℕ) (missing_percentage : ℚ) : ℚ :=
  let score : ℚ := 0
  -- Size complexity
  let score := score + (if rows > 10000 then 15 else if rows > 1000 then 10 else 5)
  let score := score +
    (if columns > 50 then 20 else if columns > 20 then 15
     else if columns > 10 then 10 else 5)
  -- Feature type complexity
  let score := score + min ((numeric_cols : ℚ) * 2) 20
  let score := score + min ((categorical_cols : ℚ) * 1.5) 15
  let score := score + min ((text_cols : ℚ) * 3) 15
  let score := score + min ((high_cardinality_cols : ℚ) * 2) 10
  -- Special data type complexity
  let score := score + (if is_time_series then 10 else 0)
  let score := score + (if geospatial_cols > 0 then 10 else 0)
  -- Data quality complexity
  let score := score +
    (if missing_percentage > 20 then 10 else if missing_percentage > 10 then 5 else 0)
  min score 100

/-- The six booleans of the `complex_conditions` list in
`_determine_eda_type` (lines 237-244). -/
def complex_conditions (c : DatasetCharacteristics) : List Bool :=
  [c.is_high_dimensional,
   decide (c.complexity_score > 60),
   decide (c.high_cardinality_columns > 3),
   c.is_imbalanced && c.has_target_variable,
   decide (c.missing_percentage > 15),
   decide (c.columns > 15)]

/-- `_determine_eda_type` from `eda_engine.py` (lines 219-250).
`none` models the `ZeroDivisionError` raised by
`characteristics.text_columns / characteristics.columns` when
`characteristics.columns == 0`; Python's `or` short-circuits, so the
division only runs when `text_columns >= 2` is false. -/
def determine_eda_type (c : DatasetCharacteristics) : Option EDAType :=
  -- 1. Geospatial data
  if c.geospatial_columns ≥ 2 then
    some EDAType.GEOSPATIAL
  -- 2. Text-heavy data (short-circuited `or`)
  else if c.text_columns ≥ 2 then
    some EDAType.TEXTUAL
  else if c.columns = 0 then
    none -- ZeroDivisionError
  else if (c.text_columns : ℚ) / (c.columns : ℚ) > 0.3 then
    some EDAType.TEXTUAL
  -- 3. Time series data
  else if c.is_time_series ∧ c.datetime_columns > 0 then
    some EDAType.TIMESERIES
  -- 4. Complex EDA conditions
  else if 2 ≤ ((complex_conditions c).filter id).length then
    some EDAType.COMPLEX
  -- 5. Default to Basic EDA
  else
    some EDAType.BASIC

/-- A fully concrete characteristics record used to instantiate
hypotheses at witnesses. -/
def sampleCharacteristics : DatasetCharacteristics :=
  { rows := 10, columns := 3, numeric_columns := 1, categorical_columns := 0,
    text_columns := 2, datetime_columns := 1, geospatial_columns := 2,
    high_cardinality_columns := 0, missing_percentage := 0,
    duplicate_percentage := 0, is_time_series := true,
    is_high_dimensional := false, is_imbalanced := false,
    has_target_variable := false, complexity_score := 0 }

/-- **C1** For every `DatasetCharacteristics` value with at least two
geospatial columns, `_determine_eda_type` returns `GEOSPATIAL` regardless
of every other field: the geospatial rule is checked first and the
function returns on the first matching rule. -/
theorem c1_geospatial_priority (c : DatasetCharacteristics)
    (h : 2 ≤ c.geospatial_columns) :
    determine_eda_type c = some EDAType.GEOSPATIAL := by
  unfold determine_eda_type
  simp [h]

/-- Witness for `c1_geospatial_priority`: a characteristics record with two
geo columns, two text columns and a live time-series flag still routes to
`GEOSPATIAL`. -/
theorem c1_geospatial_priority_witness :
    2 ≤ sampleCharacteristics.geospatial_columns ∧
      determine_eda_type sampleCharacteristics = some EDAType.GEOSPATIAL :=
  ⟨by decide, c1_geospatial_priority sampleCharacteristics (by decide)⟩

/-- Characteristics record refuting the universal form of C9: zero
columns but two text columns. -/
def c9Characteristics : DatasetCharacteristics :=
  { sampleCharacteristics with
    columns := 0, text_columns := 2, geospatial_columns := 0 }

/-- A zero-column characteristics record as produced from a zero-column
DataFrame (every per-type count is then zero as well). -/
def zeroColumnCharacteristics : DatasetCharacteristics :=
  { rows := 0, columns := 0, numeric_columns := 0, categorical_columns := 0,
    text_columns := 0, datetime_columns := 0, geospatial_columns := 0,
    high_cardinality_columns := 0, missing_percentage := 0,
    duplicate_percentage := 0, is_time_series := false,
    is_high_dimensional := false, is_imbalanced := false,
    has_target_variable := false, complexity_score := 0 }

/-- **C9 counterexample** The claim says every characteristics value with
fewer than two geospatial columns evaluates `text_columns / columns`, so
that `columns = 0` always raises `ZeroDivisionError`.  Python's `or`
short-circuits: with `text_columns = 2` and `columns = 0` the call
returns `TEXTUAL` instead of raising. -/
theorem c9_counterexample :
    c9Characteristics.geospatial_columns < 2 ∧
      c9Characteristics.columns = 0 ∧
      determine_eda_type c9Characteristics = some EDAType.TEXTUAL := by
  refine ⟨by decide, by decide, ?_⟩
  decide

/-- **C9 (amended)** `_determine_eda_type` is total only when
`characteristics.columns > 0`: whenever `geospatial_columns < 2` *and*
`text_columns < 2`, the unguarded division `text_columns / columns` is
evaluated, so every characteristics value with `columns = 0` and
`text_columns < 2` (in particular any value computed from a zero-column
DataFrame, where `text_columns = 0`) raises `ZeroDivisionError` instead
of returning an `EDAType`. -/
theorem c9_zero_columns (c : DatasetCharacteristics)
    (hgeo : c.geospatial_columns < 2) (htext : c.text_columns < 2)
    (hcols : c.columns = 0) :
    determine_eda_type c = none := by
  unfold determine_eda_type
  have h1 : ¬ 2 ≤ c.geospatial_columns := by omega
  have h2 : ¬ 2 ≤ c.text_columns := by omega
  simp [h1, h2, hcols]

/-- Witness for `c9_zero_columns` at the characteristics of a zero-column
DataFrame. -/
theorem c9_zero_columns_witness :
    zeroColumnCharacteristics.geospatial_columns < 2 ∧
      zeroColumnCharacteristics.text_columns < 2 ∧
      zeroColumnCharacteristics.columns = 0 ∧
      determine_eda_type zeroColumnCharacteristics = none :=
  ⟨by decide, by decide, by decide,
    c9_zero_columns zeroColumnCharacteristics (by decide) (by decide) (by decide)⟩

/-! ## The DataFrame model

`enhanced_data_cleaner.py` and the characteristics analyzer operate on
pandas DataFrames.  A frame is modelled column-major: an ordered list of
named, dtype-tagged columns whose cells are optional rationals or
optional strings (`none` is `NaN`/missing).  Pandas float arithmetic is
modelled by exact rational arithmetic. -/

/-- One DataFrame cell: a numeric or a string value, or missing. -/
inductive Cell where
  | q (v : Option ℚ)
  | s (v : Option String)
deriving DecidableEq, Repr

/-- Pandas column dtypes distinguished by the cleaner
(`select_dtypes`/`dtype` checks): `np.number`, `object`, `category`,
`datetime64` (timestamps are modelled as rationals). -/
inductive DType where
  | numeric
  | object
  | category
  | datetime
deriving DecidableEq, Repr

/-- A named column. -/
structure ColE where
  name : String
  dtype : DType
  cells : List Cell
deriving DecidableEq, Repr

/-- A DataFrame: ordered list of columns. -/
abbrev Frame := List ColE

/-- `len(df)`: the row count, read off the first column. -/
def rowCount : Frame → ℕ
  | [] => 0
  | c :: _ => c.cells.length

/-- Well-formedness: all columns have the row count (the Dataset
invariant of a rectangular frame). -/
def WF (df : Frame) : Prop := ∀ c ∈ df, c.cells.length = rowCount df

instance (df : Frame) : Decidable (WF df) := by
  unfold WF; infer_instance

/-- `pd.isnull` on a cell. -/
def cellIsNull : Cell → Bool
  | Cell.q none => true
  | Cell.s none => true
  | _ => false

/-- Numeric view of a cell (non-numeric or missing gives `none`). -/
def asQ : Cell → Option ℚ
  | Cell.q (some v) => some v
  | _ => none

/-- String view of a cell. -/
def asS : Cell → Option String
  | Cell.s (some v) => some v
  | _ => none

/-- The non-missing numeric values of a column, in row order
(pandas skips `NaN` in quantile/mean/median computations). -/
def nonNullQs (cells : List Cell) : List ℚ := cells.filterMap asQ

/-- `astype(str)` on a cell: missing values print as `"nan"`; numeric
values print via `toString` (Python's float formatting differs only
cosmetically and is never compared against in the verified claims). -/
def cellStr : Cell → String
  | Cell.s (some s) => s
  | Cell.q (some v) => toString v
  | _ => "nan"

/-- `Series.nunique()`: number of distinct non-missing values. -/
def nuniqueCells (cells : List Cell) : ℕ :=
  ((cells.filter (fun c => !cellIsNull c)).dedup).length

/-- Total number of missing cells of a frame (`df.isnull().sum().sum()`). -/
def totalNulls (df : Frame) : ℕ :=
  (df.map (fun c => (c.cells.filter cellIsNull).length)).sum

/-- Keep the elements of a list at the positions where the boolean mask
is true (`df[mask]` row selection). -/
def maskFilter : List Bool → List α → List α
  | _, [] => []
  | [], _ => []
  | b :: bs, x :: xs => if b then x :: maskFilter bs xs else maskFilter bs xs

/-- Row selection on a whole frame: every column filtered by the same
mask. -/
def filterRows (m : List Bool) (df : Frame) : Frame :=
  df.map fun c => { c with cells := maskFilter m c.cells }

/-- First row of a frame (meaningful when `rowCount df ≠ 0` and `WF df`). -/
def headRow (df : Frame) : List Cell :=
  df.map fun c => c.cells.headD (Cell.s none)

/-- Frame with the first row dropped. -/
def tailF (df : Frame) : Frame :=
  df.map fun c => { c with cells := c.cells.tail }

theorem rowCount_tailF (df : Frame) : rowCount (tailF df) = rowCount df - 1 := by
  cases df with
  | nil => simp [tailF, rowCount]
  | cons c rest => simp [tailF, rowCount]

/-- Fuel-driven row extraction (`n` is the row count). -/
def rowsOfAux : ℕ → Frame → List (List Cell)
  | 0, _ => []
  | n + 1, df => headRow df :: rowsOfAux n (tailF df)

/-- The rows of a frame, as lists of cells (used for duplicate
detection, which compares whole rows). -/
def rowsOf (df : Frame) : List (List Cell) := rowsOfAux (rowCount df) df

theorem rowsOf_of_zero {df : Frame} (h : rowCount df = 0) : rowsOf df = [] := by
  unfold rowsOf
  rw [h]
  rfl

theorem rowsOf_of_pos {df : Frame} (h : rowCount df ≠ 0) :
    rowsOf df = headRow df :: rowsOf (tailF df) := by
  obtain ⟨k, hk⟩ : ∃ k, rowCount df = k + 1 := ⟨rowCount df - 1, by omega⟩
  unfold rowsOf
  rw [hk, rowCount_tailF, hk]
  rfl

theorem length_rowsOfAux (n : ℕ) (df : Frame) : (rowsOfAux n df).length = n := by
  induction n generalizing df with
  | zero => rfl
  | succ k ih => simp [rowsOfAux, ih]

theorem length_rowsOf (df : Frame) : (rowsOf df).length = rowCount df :=
  length_rowsOfAux _ _

/-! ### Generic lemmas about mask filtering and row extraction -/

theorem maskFilter_nil_left (l : List α) : maskFilter ([] : List Bool) l = [] := by
  cases l <;> rfl

theorem maskFilter_cons_true (bs : List Bool) (x : α) (xs : List α) :
    maskFilter (true :: bs) (x :: xs) = x :: maskFilter bs xs := rfl

theorem maskFilter_cons_false (bs : List Bool) (x : α) (xs : List α) :
    maskFilter (false :: bs) (x :: xs) = maskFilter bs xs := rfl

theorem maskFilter_length_congr (m : List Bool) (l1 : List α) (l2 : List β)
    (h : l1.length = l2.length) :
    (maskFilter m l1).length = (maskFilter m l2).length := by
  induction m generalizing l1 l2 with
  | nil => simp [maskFilter_nil_left]
  | cons b bs ih =>
    cases l1 with
    | nil => cases l2 with
      | nil => rfl
      | cons y ys => simp at h
    | cons x xs =>
      cases l2 with
      | nil => simp at h
      | cons y ys =>
        simp only [List.length_cons, Nat.succ.injEq] at h
        cases b <;> simp [maskFilter, ih xs ys h]

theorem WF_tailF {df : Frame} (hwf : WF df) : WF (tailF df) := by
  intro c' hc'
  obtain ⟨c, hc, rfl⟩ := List.mem_map.mp hc'
  simp only [List.length_tail, rowCount_tailF, hwf c hc]

theorem WF_filterRows (m : List Bool) {df : Frame} (hwf : WF df) :
    WF (filterRows m df) := by
  cases df with
  | nil => intro c hc; cases hc
  | cons c0 rest =>
    intro c' hc'
    obtain ⟨c, hc, rfl⟩ := List.mem_map.mp hc'
    have hlen : c.cells.length = c0.cells.length := hwf c hc
    simpa [filterRows, rowCount] using maskFilter_length_congr m c.cells c0.cells hlen

theorem rowCount_ne_zero_of_cons {df : Frame} {b : Bool} {bs : List Bool}
    (hm : (b :: bs).length = rowCount df) : rowCount df ≠ 0 := by
  simp only [List.length_cons] at hm
  omega

/-- The central transposition lemma: filtering the rows of a rectangular
frame commutes with extracting its rows. -/
theorem rowsOf_filterRows (m : List Bool) (df : Frame) (hwf : WF df)
    (hm : m.length = rowCount df) :
    rowsOf (filterRows m df) = maskFilter m (rowsOf df) := by
  induction m generalizing df with
  | nil =>
    have h0 : rowCount df = 0 := by simpa using hm.symm
    have h1 : rowCount (filterRows [] df) = 0 := by
      cases df with
      | nil => rfl
      | cons c rest => simp [filterRows, rowCount, maskFilter_nil_left]
    rw [rowsOf_of_zero h1, rowsOf_of_zero h0]
    rfl
  | cons b bs ih =>
    have hpos : rowCount df ≠ 0 := rowCount_ne_zero_of_cons hm
    have hnonempty : ∀ c ∈ df, c.cells ≠ [] := by
      intro c hc hnil
      exact hpos (by rw [← hwf c hc, hnil]; rfl)
    have hbs : bs.length = rowCount (tailF df) := by
      rw [rowCount_tailF]
      simp only [List.length_cons] at hm
      omega
    have htail : WF (tailF df) := WF_tailF hwf
    have ihtail := ih (tailF df) htail hbs
    have hfilter_tail : filterRows bs (tailF df) =
        df.map (fun c => { c with cells := maskFilter bs c.cells.tail }) := by
      unfold filterRows tailF
      rw [List.map_map]
      rfl
    cases b with
    | false =>
      have hL : filterRows (false :: bs) df =
          df.map (fun c => { c with cells := maskFilter bs c.cells.tail }) := by
        unfold filterRows
        apply List.map_congr_left
        intro c hc
        rcases hx : c.cells with _ | ⟨x, xs⟩
        · exact absurd hx (hnonempty c hc)
        · simp [maskFilter]
      rw [hL, ← hfilter_tail, ihtail, rowsOf_of_pos hpos]
      rfl
    | true =>
      have hL : filterRows (true :: bs) df =
          df.map (fun c =>
            { c with cells := c.cells.headD (Cell.s none) :: maskFilter bs c.cells.tail }) := by
        unfold filterRows
        apply List.map_congr_left
        intro c hc
        rcases hx : c.cells with _ | ⟨x, xs⟩
        · exact absurd hx (hnonempty c hc)
        · simp [maskFilter]
      rw [hL]
      have hg : rowCount (df.map (fun c =>
          { c with cells := c.cells.headD (Cell.s none) :: maskFilter bs c.cells.tail })) ≠ 0 := by
        cases df with
        | nil => exact absurd rfl hpos
        | cons c rest => simp [rowCount]
      rw [rowsOf_of_pos hg]
      have hhead : headRow (df.map (fun c =>
          { c with cells := c.cells.headD (Cell.s none) :: maskFilter bs c.cells.tail })) =
          headRow df := by
        unfold headRow
        rw [List.map_map]
        rfl
      have htl : tailF (df.map (fun c =>
          { c with cells := c.cells.headD (Cell.s none) :: maskFilter bs c.cells.tail })) =
          filterRows bs (tailF df) := by
        rw [hfilter_tail]
        unfold tailF
        rw [List.map_map]
        rfl
      rw [hhead, htl, ihtail, rowsOf_of_pos hpos]
      rfl

/-- Mask marking, for each row, whether it is the first occurrence of its
value (given the accumulator of previously seen rows).  This is the
keep-mask of `DataFrame.drop_duplicates()`. -/
def firstOccAux [DecidableEq α] (seen : List α) : List α → List Bool
  | [] => []
  | r :: rs => (!(seen.contains r)) :: firstOccAux (r :: seen) rs

/-- Keep-mask of `drop_duplicates` (keep = first occurrence). -/
def firstOccMask [DecidableEq α] (rs : List α) : List Bool := firstOccAux [] rs

theorem length_firstOccAux [DecidableEq α] (rs : List α) (seen : List α) :
    (firstOccAux seen rs).length = rs.length := by
  induction rs generalizing seen with
  | nil => rfl
  | cons r rs ih => simp [firstOccAux, ih]

theorem length_firstOccMask [DecidableEq α] (rs : List α) :
    (firstOccMask rs).length = rs.length :=
  length_firstOccAux rs []

theorem maskFilter_firstOccAux_nodup [DecidableEq α] (rs : List α) : ∀ seen : List α,
    (maskFilter (firstOccAux seen rs) rs).Nodup ∧
      ∀ r ∈ maskFilter (firstOccAux seen rs) rs, r ∉ seen := by
  induction rs with
  | nil => exact fun seen => ⟨List.nodup_nil, by simp [maskFilter]⟩
  | cons r rs ih =>
    intro seen
    obtain ⟨h1, h2⟩ := ih (r :: seen)
    by_cases hc : r ∈ seen
    · have hct : seen.contains r = true := by simpa using hc
      simp only [firstOccAux, hct, Bool.not_true, maskFilter_cons_false]
      refine ⟨h1, fun x hx => ?_⟩
      have := h2 x hx
      simp only [List.mem_cons] at this
      exact fun hxs => this (Or.inr hxs)
    · have hct : seen.contains r = false := by simpa using hc
      simp only [firstOccAux, hct, Bool.not_false, maskFilter_cons_true]
      constructor
      · refine List.nodup_cons.mpr ⟨fun hmem => ?_, h1⟩
        exact (h2 r hmem) (List.mem_cons_self r seen)
      · intro x hx
        rcases List.mem_cons.mp hx with rfl | hx'
        · exact hc
        · have := h2 x hx'
          simp only [List.mem_cons] at this
          exact fun hxs => this (Or.inr hxs)

theorem firstOccAux_of_nodup [DecidableEq α] (rs : List α) : ∀ seen : List α,
    rs.Nodup → (∀ r ∈ rs, r ∉ seen) →
    firstOccAux seen rs = List.replicate rs.length true := by
  induction rs with
  | nil => intro seen _ _; rfl
  | cons r rs ih =>
    intro seen hnd hdisj
    have hct : seen.contains r = false := by
      simpa using hdisj r (List.mem_cons_self r rs)
    have hnd' := List.nodup_cons.mp hnd
    simp only [firstOccAux, hct, Bool.not_false, List.length_cons, List.replicate_succ]
    congr 1
    refine ih (r :: seen) hnd'.2 ?_
    intro x hx
    simp only [List.mem_cons, not_or]
    exact ⟨fun hxr => hnd'.1 (hxr ▸ hx), hdisj x (List.mem_cons_of_mem r hx)⟩

theorem firstOccMask_of_nodup [DecidableEq α] {rs : List α} (h : rs.Nodup) :
    firstOccMask rs = List.replicate rs.length true :=
  firstOccAux_of_nodup rs [] h (by simp)

theorem maskFilter_replicate_true (l : List α) :
    maskFilter (List.replicate l.length true) l = l := by
  induction l with
  | nil => rfl
  | cons x xs ih => simp [List.replicate_succ, maskFilter, ih]

theorem filterRows_replicate_true {df : Frame} (hwf : WF df) :
    filterRows (List.replicate (rowCount df) true) df = df := by
  unfold filterRows
  have : ∀ c ∈ df, ({ c with cells := maskFilter (List.replicate (rowCount df) true) c.cells } : ColE) = c := by
    intro c hc
    have hlen := hwf c hc
    rw [← hlen, maskFilter_replicate_true]
  rw [List.map_congr_left this]
  exact List.map_id df

/-- `df.drop_duplicates()`: keep the first occurrence of every distinct
row. -/
def drop_duplicates (df : Frame) : Frame :=
  filterRows (firstOccMask (rowsOf df)) df

theorem rowsOf_drop_duplicates {df : Frame} (hwf : WF df) :
    rowsOf (drop_duplicates df) = maskFilter (firstOccMask (rowsOf df)) (rowsOf df) :=
  rowsOf_filterRows _ df hwf (by rw [length_firstOccMask, length_rowsOf])

theorem drop_duplicates_idem {df : Frame} (hwf : WF df) :
    drop_duplicates (drop_duplicates df) = drop_duplicates df := by
  have hA := rowsOf_drop_duplicates hwf
  have hnd : (maskFilter (firstOccMask (rowsOf df)) (rowsOf df)).Nodup :=
    (maskFilter_firstOccAux_nodup (rowsOf df) []).1
  have hwf' : WF (drop_duplicates df) := WF_filterRows _ hwf
  have hmask : firstOccMask (rowsOf (drop_duplicates df)) =
      List.replicate (rowCount (drop_duplicates df)) true := by
    rw [hA, firstOccMask_of_nodup hnd]
    congr 1
    rw [← hA, length_rowsOf]
  calc drop_duplicates (drop_duplicates df)
      = filterRows (firstOccMask (rowsOf (drop_duplicates df))) (drop_duplicates df) := rfl
    _ = filterRows (List.replicate (rowCount (drop_duplicates df)) true)
          (drop_duplicates df) := by rw [hmask]
    _ = drop_duplicates df := filterRows_replicate_true hwf'

/-! ### Cleaning audit log -/

/-- `CleaningLogEntry` as appended by `log_operation`
(`enhanced_data_cleaner.py` lines 32-41).  The wall-clock `timestamp`
field is nondeterministic and omitted from the model. -/
structure LogEntry where
  operation : String
  details : String
  rows_before : ℕ
  rows_after : ℕ
  rows_changed : ℤ
deriving DecidableEq, Repr

/-- `log_operation`: builds one audit-trail entry with
`rows_changed = rows_before - rows_after`. -/
def log_operation (operation details : String) (rows_before rows_after : ℕ) : LogEntry :=
  { operation := operation, details := details, rows_before := rows_before,
    rows_after := rows_after,
    rows_changed := (rows_before : ℤ) - (rows_after : ℤ) }

/-! ### Stage 3: `_remove_duplicates` -/

/-- Python `str.lower()` (pandas `Series.str.lower`), character by
character. -/
def pyLower (s : String) : String := String.mk (s.data.map Char.toLower)

/-- Python `str.strip()` (pandas `Series.str.strip`): whitespace removed
from both ends. -/
def pyStrip (s : String) : String :=
  String.mk (((s.data.dropWhile Char.isWhitespace).reverse.dropWhile
    Char.isWhitespace).reverse)

/-- The fuzzy-matching normalization `df[col].str.lower().str.strip()`
applied to one cell; the pandas `.str` accessor yields `NaN` on
non-string elements. -/
def fuzzyNormCell : Cell → Cell
  | Cell.s (some s) => Cell.s (some (pyStrip (pyLower s)))
  | _ => Cell.s none

/-- `_remove_duplicates` (stage 3, lines 243-265): exact duplicate
removal, one log entry when rows were removed, then the optional
fuzzy-matching normalization pre-pass over object columns
(`config.get('fuzzy_matching', False)`). -/
def remove_duplicates (fuzzy : Bool) (df : Frame) : Frame × List LogEntry :=
  let rows_before := rowCount df
  let df1 := drop_duplicates df
  let exact_dupes_removed := rows_before - rowCount df1
  let log :=
    if 0 < exact_dupes_removed then
      [log_operation "remove_exact_duplicates"
        ("Removed " ++ toString exact_dupes_removed ++ " exact duplicate rows")
        rows_before (rowCount df1)]
    else []
  let df2 :=
    if fuzzy then
      df1.map fun c =>
        if c.dtype = DType.object then { c with cells := c.cells.map fuzzyNormCell }
        else c
    else df1
  (df2, log)

theorem remove_duplicates_false_fst (df : Frame) :
    (remove_duplicates false df).1 = drop_duplicates df := rfl

theorem remove_duplicates_false_snd (df : Frame) :
    (remove_duplicates false df).2 =
      if 0 < rowCount df - rowCount (drop_duplicates df) then
        [log_operation "remove_exact_duplicates"
          ("Removed " ++ toString (rowCount df - rowCount (drop_duplicates df)) ++
            " exact duplicate rows")
          (rowCount df) (rowCount (drop_duplicates df))]
      else [] := rfl

/-- The frame on which stage 3 with `fuzzy_matching=True` is not
idempotent: `"A"` and `"a"` are distinct rows, but the normalization
pre-pass (which runs *after* the exact dedup) maps both to `"a"`. -/
def c6Frame : Frame :=
  [{ name := "name", dtype := DType.object,
     cells := [Cell.s (some "A"), Cell.s (some "a")] }]

/-- **C6 counterexample** With `fuzzy_matching` enabled, applying
`_remove_duplicates` twice removes a row in the second application: the
first application removes nothing but lowercases `"A"` to `"a"`, the
second application then drops the newly exact duplicate, so the second
output has 1 row while the first output has 2. -/
theorem c6_counterexample :
    rowCount (remove_duplicates true c6Frame).1 = 2 ∧
      rowCount (remove_duplicates true (remove_duplicates true c6Frame).1).1 = 1 := by
  constructor <;> decide

/-- **C6 (amended)** For every rectangular dataset and every
configuration with fuzzy matching disabled (the default), applying
`_remove_duplicates` twice in succession removes zero rows in the second
application: the second output has the same row count as the first
output (and the second application logs no removal).  With
`fuzzy_matching` enabled the normalization pre-pass can create new exact
duplicates that the second application removes. -/
theorem c6_dedup_idempotent (df : Frame) (hwf : WF df) :
    rowCount (remove_duplicates false (remove_duplicates false df).1).1 =
        rowCount (remove_duplicates false df).1 ∧
      (remove_duplicates false (remove_duplicates false df).1).2 = [] := by
  have hidem := drop_duplicates_idem hwf
  constructor
  · rw [remove_duplicates_false_fst, remove_duplicates_false_fst, hidem]
  · rw [remove_duplicates_false_fst, remove_duplicates_false_snd, hidem]
    simp

/-- A concrete frame with a duplicate row for the `c6_dedup_idempotent`
witness. -/
def c6WitnessFrame : Frame :=
  [{ name := "a", dtype := DType.numeric,
     cells := [Cell.q (some 1), Cell.q (some 1), Cell.q (some 2)] }]

/-- Witness for `c6_dedup_idempotent`: on a frame with one duplicate row
the first pass removes it and the second pass removes nothing. -/
theorem c6_dedup_idempotent_witness :
    WF c6WitnessFrame ∧
      (rowCount (remove_duplicates false (remove_duplicates false c6WitnessFrame).1).1 =
          rowCount (remove_duplicates false c6WitnessFrame).1 ∧
        (remove_duplicates false (remove_duplicates false c6WitnessFrame).1).2 = []) :=
  ⟨by decide, c6_dedup_idempotent c6WitnessFrame (by decide)⟩

/-! ### Stage 4: `_handle_outliers` -/

/-- pandas `Series.quantile(p)` with the default linear interpolation,
evaluated on the ascending list of the non-missing values:
`h = p·(n-1)`, `i = ⌊h⌋`, result `= xs[i] + (h-i)·(xs[i+1] - xs[i])`. -/
def quantileSorted (xs : List ℚ) (p : ℚ) : ℚ :=
  let n := xs.length
  let h := p * ((n : ℚ) - 1)
  let i := (Int.floor h).toNat
  let f := h - (i : ℚ)
  let a := xs.getD i 0
  let b := xs.getD (i + 1) a
  a + f * (b - a)

/-- Ascending sort of a column's non-missing numeric values. -/
def sortedVals (cells : List Cell) : List ℚ :=
  List.insertionSort (· ≤ ·) (nonNullQs cells)

/-- The IQR fences of `_handle_outliers`:
`(Q1 - 1.5·IQR, Q3 + 1.5·IQR)` with `IQR = Q3 - Q1`. -/
def outlierBounds (cells : List Cell) : ℚ × ℚ :=
  let Q1 := quantileSorted (sortedVals cells) (1/4)
  let Q3 := quantileSorted (sortedVals cells) (3/4)
  let IQR := Q3 - Q1
  (Q1 - 1.5 * IQR, Q3 + 1.5 * IQR)

/-- `(df[col] < lower_bound) | (df[col] > upper_bound)` on one cell
(`NaN` compares false on both sides). -/
def isOutlierCell (lower upper : ℚ) (cell : Cell) : Bool :=
  match asQ cell with
  | some v => decide (v < lower) || decide (upper < v)
  | none => false

/-- `df.loc[df[col] < lower_bound, col] = lower_bound` on one cell. -/
def capCellLow (lower : ℚ) (cell : Cell) : Cell :=
  match asQ cell with
  | some v => if v < lower then Cell.q (some lower) else cell
  | none => cell

/-- `df.loc[df[col] > upper_bound, col] = upper_bound` on one cell
(the second write reads the column already updated by the first). -/
def capCellHigh (upper : ℚ) (cell : Cell) : Cell :=
  match asQ cell with
  | some v => if upper < v then Cell.q (some upper) else cell
  | none => cell

/-- The two sequential `df.loc` writes of the `'cap'` action. -/
def cap_pass (lower upper : ℚ) (cells : List Cell) : List Cell :=
  (cells.map (capCellLow lower)).map (capCellHigh upper)

/-- In-place update of the column named `colName`. -/
def updateNamedCol (df : Frame) (colName : String)
    (f : List Cell → List Cell) : Frame :=
  df.map fun c => if c.name = colName then { c with cells := f c.cells } else c

/-- The frame after the `action` branch of one `_handle_outliers` loop
iteration (`df'` of lines 292-296): `'remove'` filters the rows flagged
by the outlier mask of column `c`, `'cap'` clips that column in place,
any other action leaves the frame unchanged. -/
def outlier_action_frame (action : String) (df : Frame) (colName : String)
    (c : ColE) : Frame :=
  if action = "remove" then
    filterRows (c.cells.map fun cell =>
      !(isOutlierCell (outlierBounds c.cells).1 (outlierBounds c.cells).2 cell)) df
  else if action = "cap" then
    updateNamedCol df colName
      (cap_pass (outlierBounds c.cells).1 (outlierBounds c.cells).2)
  else df

/-- One iteration of the `for col in numeric_cols` loop of
`_handle_outliers` (lines 274-302), `method='iqr'`.  A column with no
non-missing numeric values gets `NaN` quantiles in pandas, so every
comparison is false and the iteration does nothing; the model skips it
directly.  The appended log entry passes `len(df)` twice, *after* the
mutation, exactly as the source does. -/
def handle_outliers_step (action : String) (st : Frame × List LogEntry)
    (colName : String) : Frame × List LogEntry :=
  match st.1.find? (fun c => c.name = colName) with
  | none => st
  | some c =>
    if (nonNullQs c.cells).isEmpty then st
    else if 0 < (c.cells.filter
        (isOutlierCell (outlierBounds c.cells).1 (outlierBounds c.cells).2)).length then
      (outlier_action_frame action st.1 colName c,
       st.2 ++ [log_operation ("handle_outliers_" ++ action)
         ("Handled " ++ toString (c.cells.filter
             (isOutlierCell (outlierBounds c.cells).1 (outlierBounds c.cells).2)).length ++
           " outliers in " ++ colName ++ " using iqr method")
         (rowCount (outlier_action_frame action st.1 colName c))
         (rowCount (outlier_action_frame action st.1 colName c))])
    else st

/-- `_handle_outliers` (stage 4, lines 267-304) with the default
`method='iqr'`; `action` is `config.get('action','cap')`.  The `zscore`
branch computes `mean ± 3·std` whose square root lies outside this exact
rational model and is not embedded; every verified claim fixes the `iqr`
method.  Note the source logs each column with
`log_operation(..., len(df), len(df))` *after* mutating `df`. -/
def handle_outliers (action : String) (df : Frame) : Frame × List LogEntry :=
  let numeric_cols := (df.filter fun c => c.dtype = DType.numeric).map ColE.name
  numeric_cols.foldl (handle_outliers_step action) (df, [])

/-- The 5-value numeric column of spec Scenario D, also the failing
input of the outlier-removal audit-log divergence. -/
def outlierFrame : Frame :=
  [{ name := "x", dtype := DType.numeric,
     cells := [Cell.q (some 1), Cell.q (some 2), Cell.q (some 3), Cell.q (some 4),
               Cell.q (some 100)] }]

/-! ### Quantile interpolation is monotone in `p`, hence `Q1 ≤ Q3` and the
IQR fences are ordered. -/

theorem sorted_getD_mono {xs : List ℚ} (hs : xs.Sorted (· ≤ ·)) {i j : ℕ}
    (hij : i ≤ j) (hj : j < xs.length) (d d' : ℚ) :
    xs.getD i d ≤ xs.getD j d' := by
  have hi : i < xs.length := by omega
  rw [List.getD_eq_getElem xs d hi, List.getD_eq_getElem xs d' hj]
  rcases lt_or_eq_of_le hij with hlt | rfl
  · have := hs.rel_get_of_lt (a := ⟨i, hi⟩) (b := ⟨j, hj⟩) (by simpa using hlt)
    simpa [List.get_eq_getElem] using this
  · exact le_refl _

theorem quantileSorted_eq (xs : List ℚ) (p : ℚ) :
    quantileSorted xs p =
      xs.getD (Int.floor (p * ((xs.length : ℚ) - 1))).toNat 0 +
        (p * ((xs.length : ℚ) - 1) -
            ((Int.floor (p * ((xs.length : ℚ) - 1))).toNat : ℚ)) *
          (xs.getD ((Int.floor (p * ((xs.length : ℚ) - 1))).toNat + 1)
              (xs.getD (Int.floor (p * ((xs.length : ℚ) - 1))).toNat 0) -
            xs.getD (Int.floor (p * ((xs.length : ℚ) - 1))).toNat 0) := rfl

theorem quantileSorted_mono {xs : List ℚ} (hs : xs.Sorted (· ≤ ·)) (hne : xs ≠ [])
    {p p2 : ℚ} (hp0 : 0 ≤ p) (hpp : p ≤ p2) (hp1 : p2 ≤ 1) :
    quantileSorted xs p ≤ quantileSorted xs p2 := by
  have hn : 1 ≤ xs.length := List.length_pos.mpr hne
  have hn1 : (0 : ℚ) ≤ (xs.length : ℚ) - 1 := by
    have : (1 : ℚ) ≤ (xs.length : ℚ) := by exact_mod_cast hn
    linarith
  set n := xs.length with hndef
  set h := p * ((n : ℚ) - 1) with hh
  set h2 := p2 * ((n : ℚ) - 1) with hh2
  have h0 : 0 ≤ h := mul_nonneg hp0 hn1
  have h02 : 0 ≤ h2 := mul_nonneg (le_trans hp0 hpp) hn1
  have hhh : h ≤ h2 := mul_le_mul_of_nonneg_right hpp hn1
  have hub : h2 ≤ (n : ℚ) - 1 := by
    calc h2 ≤ 1 * ((n : ℚ) - 1) := mul_le_mul_of_nonneg_right hp1 hn1
      _ = (n : ℚ) - 1 := one_mul _
  have hf0 : 0 ≤ ⌊h⌋ := Int.floor_nonneg.mpr h0
  have hf02 : 0 ≤ ⌊h2⌋ := Int.floor_nonneg.mpr h02
  have hfm : ⌊h⌋ ≤ ⌊h2⌋ := Int.floor_le_floor hhh
  set i := ⌊h⌋.toNat with hidef
  set i2 := ⌊h2⌋.toNat with hi2def
  have hii2 : i ≤ i2 := Int.toNat_le_toNat hfm
  have hfub : ⌊h2⌋ ≤ (n : ℤ) - 1 := by
    have h1 : ⌊h2⌋ ≤ ⌊((n : ℚ) - 1)⌋ := Int.floor_le_floor hub
    have h2 : ((n : ℚ) - 1) = (((n : ℤ) - 1 : ℤ) : ℚ) := by push_cast; ring
    rw [h2, Int.floor_intCast] at h1
    exact h1
  have hi2_lt : i2 < n := by omega
  have hi_lt : i < n := lt_of_le_of_lt hii2 hi2_lt
  have hicast : ((i : ℚ)) = ((⌊h⌋ : ℤ) : ℚ) := by
    rw [hidef]
    exact_mod_cast congrArg (fun z : ℤ => (z : ℚ)) (Int.toNat_of_nonneg hf0)
  have hicast2 : ((i2 : ℚ)) = ((⌊h2⌋ : ℤ) : ℚ) := by
    rw [hi2def]
    exact_mod_cast congrArg (fun z : ℤ => (z : ℚ)) (Int.toNat_of_nonneg hf02)
  have hfle : (i : ℚ) ≤ h := by rw [hicast]; exact Int.floor_le h
  have hfle2 : (i2 : ℚ) ≤ h2 := by rw [hicast2]; exact Int.floor_le h2
  have hflt : h < (i : ℚ) + 1 := by rw [hicast]; exact Int.lt_floor_add_one h
  rw [quantileSorted_eq, quantileSorted_eq]
  rw [← hndef, ← hh, ← hh2, ← hidef, ← hi2def]
  set a := xs.getD i 0 with hadef
  set a2 := xs.getD i2 0 with ha2def
  set b := xs.getD (i + 1) a with hbdef
  set b2 := xs.getD (i2 + 1) a2 with hb2def
  have hba : a ≤ b := by
    by_cases hin : i + 1 < n
    · exact sorted_getD_mono hs (Nat.le_succ i) hin 0 a
    · rw [hbdef, List.getD_eq_default xs a (by omega)]
  have hba2 : a2 ≤ b2 := by
    by_cases hin : i2 + 1 < n
    · exact sorted_getD_mono hs (Nat.le_succ i2) hin 0 a2
    · rw [hb2def, List.getD_eq_default xs a2 (by omega)]
  rcases eq_or_lt_of_le hii2 with heq | hlt
  · -- same interpolation cell: monotone in the fractional part
    have ha_eq : a = a2 := by rw [hadef, ha2def, heq]
    have hb_eq : b = b2 := by rw [hbdef, hb2def, heq, ha_eq]
    rw [ha_eq, hb_eq, heq]
    have hf2ge : h - (i2 : ℚ) ≤ h2 - (i2 : ℚ) := by linarith
    have hmul := mul_le_mul_of_nonneg_right hf2ge
      (by rw [← ha_eq, ← hb_eq]; linarith : (0 : ℚ) ≤ b2 - a2)
    linarith
  · -- strictly later cell: chain through xs[i+1] ≤ xs[i2]
    have hstep1 : a + (h - (i : ℚ)) * (b - a) ≤ b := by
      have hf1 : h - (i : ℚ) ≤ 1 := by linarith
      nlinarith [mul_le_mul_of_nonneg_right hf1 (by linarith : (0 : ℚ) ≤ b - a)]
    have hstep2 : b ≤ a2 := by
      have hget : xs.getD (i + 1) a ≤ xs.getD i2 0 :=
        sorted_getD_mono hs (by omega : i + 1 ≤ i2) hi2_lt a 0
      rw [← hbdef, ← ha2def] at hget
      exact hget
    have hstep3 : a2 ≤ a2 + (h2 - (i2 : ℚ)) * (b2 - a2) := by
      nlinarith [mul_nonneg (by linarith : (0 : ℚ) ≤ h2 - (i2 : ℚ))
        (by linarith : (0 : ℚ) ≤ b2 - a2)]
    linarith

theorem outlierBounds_le {cells : List Cell} (hne : nonNullQs cells ≠ []) :
    (outlierBounds cells).1 ≤ (outlierBounds cells).2 := by
  have hs : (sortedVals cells).Sorted (· ≤ ·) :=
    List.sorted_insertionSort (· ≤ ·) (nonNullQs cells)
  have hperm := List.perm_insertionSort (· ≤ ·) (nonNullQs cells)
  have hne' : sortedVals cells ≠ [] := by
    intro h0
    apply hne
    have : ([] : List ℚ).Perm (nonNullQs cells) := h0 ▸ hperm
    exact (this.symm.eq_nil)
  have hq : quantileSorted (sortedVals cells) (1/4) ≤
      quantileSorted (sortedVals cells) (3/4) :=
    quantileSorted_mono hs hne' (by norm_num) (by norm_num) (by norm_num)
  unfold outlierBounds
  dsimp only
  linarith

/-! ### The `'cap'` action as a per-column map -/

/-- The net effect of one `_handle_outliers` loop iteration with
`action='cap'` on its own column. -/
def capColE (c : ColE) : ColE :=
  if (nonNullQs c.cells).isEmpty then c
  else if 0 < (c.cells.filter
      (isOutlierCell (outlierBounds c.cells).1 (outlierBounds c.cells).2)).length then
    { c with cells :=
        cap_pass (outlierBounds c.cells).1 (outlierBounds c.cells).2 c.cells }
  else c

theorem capColE_name (c : ColE) : (capColE c).name = c.name := by
  unfold capColE
  split_ifs <;> rfl

theorem capColE_dtype (c : ColE) : (capColE c).dtype = c.dtype := by
  unfold capColE
  split_ifs <;> rfl

theorem capColE_length (c : ColE) : (capColE c).cells.length = c.cells.length := by
  unfold capColE
  split_ifs <;> simp [cap_pass]

theorem cap_cell_bounds {lower upper : ℚ} (hlu : lower ≤ upper) (cell : Cell) {v : ℚ}
    (hv : asQ (capCellHigh upper (capCellLow lower cell)) = some v) :
    lower ≤ v ∧ v ≤ upper := by
  rcases cell with w | w
  · rcases w with _ | w
    · simp [capCellLow, capCellHigh, asQ] at hv
    · by_cases h1 : w < lower
      · have : capCellLow lower (Cell.q (some w)) = Cell.q (some lower) := by
          simp [capCellLow, asQ, h1]
        rw [this] at hv
        have h2 : ¬ (upper < lower) := not_lt.mpr hlu
        simp [capCellHigh, asQ, h2] at hv
        exact ⟨by linarith [hv.symm ▸ le_refl lower], by rw [← hv]; exact hlu⟩
      · have : capCellLow lower (Cell.q (some w)) = Cell.q (some w) := by
          simp [capCellLow, asQ, h1]
        rw [this] at hv
        by_cases h2 : upper < w
        · simp [capCellHigh, asQ, h2] at hv
          exact ⟨by rw [← hv]; exact hlu, le_of_eq hv.symm⟩
        · simp [capCellHigh, asQ, h2] at hv
          rw [← hv]
          exact ⟨not_lt.mp h1, not_lt.mp h2⟩
  · simp [capCellLow, capCellHigh, asQ] at hv

theorem no_outliers_in_bounds {lower upper : ℚ} {cells : List Cell}
    (hcnt : ¬ 0 < (cells.filter (isOutlierCell lower upper)).length) :
    ∀ v ∈ nonNullQs cells, lower ≤ v ∧ v ≤ upper := by
  intro v hv
  obtain ⟨cell, hcell, hva⟩ := List.mem_filterMap.mp hv
  have hfnil : cells.filter (isOutlierCell lower upper) = [] :=
    List.length_eq_zero.mp (by omega)
  have hout : ¬ (isOutlierCell lower upper cell = true) :=
    List.filter_eq_nil.mp hfnil cell hcell
  unfold isOutlierCell at hout
  rw [hva] at hout
  simp only [Bool.or_eq_true, decide_eq_true_eq, not_or] at hout
  exact ⟨not_lt.mp hout.1, not_lt.mp hout.2⟩

theorem cap_pass_bounds {lower upper : ℚ} (hlu : lower ≤ upper) (cells : List Cell) :
    ∀ v ∈ nonNullQs (cap_pass lower upper cells), lower ≤ v ∧ v ≤ upper := by
  intro v hv
  unfold cap_pass nonNullQs at hv
  rw [List.map_map, List.filterMap_map] at hv
  obtain ⟨cell, _, hva⟩ := List.mem_filterMap.mp hv
  exact cap_cell_bounds hlu cell hva

/-- Every non-missing numeric value of a capped column lies inside the
IQR fences computed from the column's original values. -/
theorem capColE_bounds (c : ColE) :
    ∀ v ∈ nonNullQs (capColE c).cells,
      (outlierBounds c.cells).1 ≤ v ∧ v ≤ (outlierBounds c.cells).2 := by
  intro v hv
  unfold capColE at hv
  by_cases hemp : (nonNullQs c.cells).isEmpty
  · rw [if_pos hemp] at hv
    rw [List.isEmpty_iff] at hemp
    rw [hemp] at hv
    cases hv
  · rw [if_neg hemp] at hv
    have hne : nonNullQs c.cells ≠ [] := by
      intro h0
      exact hemp (by rw [h0]; rfl)
    have hlu := outlierBounds_le hne
    by_cases hcnt : 0 < (c.cells.filter
        (isOutlierCell (outlierBounds c.cells).1 (outlierBounds c.cells).2)).length
    · rw [if_pos hcnt] at hv
      exact cap_pass_bounds hlu c.cells v hv
    · rw [if_neg hcnt] at hv
      exact no_outliers_in_bounds hcnt v hv

/-- In a frame with pairwise-distinct column names, columns with the
same name are equal. -/
theorem eq_of_name_eq_of_nodup {df : Frame} (hnd : (df.map ColE.name).Nodup)
    {c c' : ColE} (hc : c ∈ df) (hc' : c' ∈ df) (hname : c.name = c'.name) :
    c = c' := by
  induction df with
  | nil => cases hc
  | cons d rest ih =>
    rw [List.map_cons, List.nodup_cons] at hnd
    rcases List.mem_cons.mp hc with rfl | hcr
    · rcases List.mem_cons.mp hc' with rfl | hc'r
      · rfl
      · exact absurd (List.mem_map.mpr ⟨c', hc'r, hname.symm⟩) hnd.1
    · rcases List.mem_cons.mp hc' with rfl | hc'r
      · exact absurd (List.mem_map.mpr ⟨c, hcr, hname⟩) hnd.1
      · exact ih hnd.2 hcr hc'r

/-- One `'cap'` iteration is the pointwise map that caps exactly the
column named `n` (for frames with distinct column names). -/
theorem outlier_action_frame_cap (df : Frame) (colName : String) (c : ColE) :
    outlier_action_frame "cap" df colName c =
      updateNamedCol df colName
        (cap_pass (outlierBounds c.cells).1 (outlierBounds c.cells).2) := by
  unfold outlier_action_frame
  rw [if_neg (by decide : ¬ ("cap" = "remove")), if_pos rfl]

theorem handle_outliers_step_cap (df : Frame) (log : List LogEntry)
    (hnd : (df.map ColE.name).Nodup) (n : String) :
    (handle_outliers_step "cap" (df, log) n).1 =
      df.map (fun c => if c.name = n then capColE c else c) := by
  have hid : (∀ c ∈ df, c.name = n → capColE c = c) →
      df.map (fun c => if c.name = n then capColE c else c) = df := by
    intro hno
    have := List.map_congr_left (l := df)
      (f := fun c => if c.name = n then capColE c else c) (g := id)
      (fun c hc => by
        show (if c.name = n then capColE c else c) = c
        by_cases hcn : c.name = n
        · rw [if_pos hcn]
          exact hno c hc hcn
        · exact if_neg hcn)
    rw [this, List.map_id]
  rcases hfind : df.find? (fun c => decide (c.name = n)) with _ | c₀
  · have hno : ∀ c ∈ df, c.name ≠ n := by
      intro c hc
      have := List.find?_eq_none.mp hfind c hc
      simpa using this
    unfold handle_outliers_step
    dsimp only
    rw [hfind]
    rw [hid (fun c hc hcn => absurd hcn (hno c hc))]
  · have hc₀mem : c₀ ∈ df := List.mem_of_find?_eq_some hfind
    have hc₀name : c₀.name = n := by
      have := List.find?_some hfind
      simpa using this
    have huniq : ∀ c ∈ df, c.name = n → c = c₀ := fun c hc hcn =>
      eq_of_name_eq_of_nodup hnd hc hc₀mem (hcn.trans hc₀name.symm)
    unfold handle_outliers_step
    dsimp only
    rw [hfind]
    dsimp only
    by_cases hemp : (nonNullQs c₀.cells).isEmpty
    · rw [if_pos hemp]
      rw [hid (fun c hc hcn => by
        rw [huniq c hc hcn]
        unfold capColE
        rw [if_pos hemp])]
    · rw [if_neg hemp]
      by_cases hcnt : 0 < (c₀.cells.filter
          (isOutlierCell (outlierBounds c₀.cells).1 (outlierBounds c₀.cells).2)).length
      · rw [if_pos hcnt]
        show outlier_action_frame "cap" df n c₀ = _
        rw [outlier_action_frame_cap]
        unfold updateNamedCol
        apply List.map_congr_left
        intro c hc
        show (if c.name = n then
            ({ c with
              cells := cap_pass (outlierBounds c₀.cells).1
                (outlierBounds c₀.cells).2 c.cells } : ColE)
          else c) = if c.name = n then capColE c else c
        by_cases hcn : c.name = n
        · rw [if_pos hcn, if_pos hcn, huniq c hc hcn]
          have : capColE c₀ =
              { c₀ with
                cells := cap_pass (outlierBounds c₀.cells).1
                  (outlierBounds c₀.cells).2 c₀.cells } := by
            unfold capColE
            rw [if_neg hemp, if_pos hcnt]
          rw [this]
        · rw [if_neg hcn, if_neg hcn]
      · rw [if_neg hcnt]
        rw [hid (fun c hc hcn => by
          rw [huniq c hc hcn]
          unfold capColE
          rw [if_neg hemp, if_neg hcnt])]

theorem names_map_capIf (df : Frame) (P : ColE → Prop) [DecidablePred P] :
    (df.map (fun c => if P c then capColE c else c)).map ColE.name =
      df.map ColE.name := by
  rw [List.map_map]
  apply List.map_congr_left
  intro c _
  by_cases h : P c
  · simp [h, capColE_name]
  · simp [h]

/-- Folding the `'cap'` iteration over a duplicate-free list of column
names caps exactly the columns whose name is in the list. -/
theorem foldl_handle_outliers_cap (ns : List String) (df : Frame)
    (log : List LogEntry) (hnd : (df.map ColE.name).Nodup) (hns : ns.Nodup) :
    (ns.foldl (handle_outliers_step "cap") (df, log)).1 =
      df.map (fun c => if c.name ∈ ns then capColE c else c) := by
  induction ns generalizing df log with
  | nil =>
    simp only [List.foldl_nil]
    have := List.map_congr_left (l := df)
      (f := fun c => if c.name ∈ ([] : List String) then capColE c else c) (g := id)
      (fun c _ => by simp)
    rw [this, List.map_id]
  | cons n ns ih =>
    rw [List.nodup_cons] at hns
    rw [List.foldl_cons]
    have hstep := handle_outliers_step_cap df log hnd n
    set st1 := handle_outliers_step "cap" (df, log) n with hst1
    have hst1e : st1 = (st1.1, st1.2) := rfl
    rw [hst1e]
    have hnd1 : (st1.1.map ColE.name).Nodup := by
      rw [hstep]
      rw [names_map_capIf df (fun c => c.name = n)]
      exact hnd
    rw [ih st1.1 st1.2 hnd1 hns.2, hstep, List.map_map]
    apply List.map_congr_left
    intro c _
    show (if (if c.name = n then capColE c else c).name ∈ ns then
        capColE (if c.name = n then capColE c else c)
      else (if c.name = n then capColE c else c)) =
      if c.name ∈ n :: ns then capColE c else c
    by_cases hcn : c.name = n
    · rw [if_pos hcn, capColE_name]
      have hnin : c.name ∉ ns := by rw [hcn]; exact hns.1
      rw [if_neg hnin, if_pos (List.mem_cons.mpr (Or.inl hcn))]
    · rw [if_neg hcn]
      by_cases hcns : c.name ∈ ns
      · rw [if_pos hcns, if_pos (List.mem_cons.mpr (Or.inr hcns))]
      · rw [if_neg hcns, if_neg (fun h => (List.mem_cons.mp h).elim
          (fun h1 => hcn h1) hcns)]

/-- `_handle_outliers` with `action='cap'` is the per-column capping map
over the numeric columns. -/
theorem handle_outliers_cap_eq_map (df : Frame)
    (hnd : (df.map ColE.name).Nodup) :
    (handle_outliers "cap" df).1 =
      df.map (fun c => if c.dtype = DType.numeric then capColE c else c) := by
  unfold handle_outliers
  have hsub : ((df.filter fun c => c.dtype = DType.numeric).map ColE.name).Sublist
      (df.map ColE.name) := (List.filter_sublist df).map _
  have hnsnd : ((df.filter fun c => c.dtype = DType.numeric).map ColE.name).Nodup :=
    hnd.sublist hsub
  rw [foldl_handle_outliers_cap _ df [] hnd hnsnd]
  apply List.map_congr_left
  intro c hc
  by_cases hdt : c.dtype = DType.numeric
  · rw [if_pos hdt, if_pos]
    exact List.mem_map.mpr ⟨c, List.mem_filter.mpr ⟨hc, by simp [hdt]⟩, rfl⟩
  · rw [if_neg hdt, if_neg]
    intro hmem
    obtain ⟨c', hc', hname⟩ := List.mem_map.mp hmem
    have hc'df : c' ∈ df := List.mem_of_mem_filter hc'
    have : c' = c := eq_of_name_eq_of_nodup hnd hc'df hc hname
    have hc'dt : c'.dtype = DType.numeric := by
      have := (List.mem_filter.mp hc').2
      simpa using this
    exact hdt (this ▸ hc'dt)

/-- **C4** After `_handle_outliers` with `method='iqr'` and `action='cap'`,
every non-missing value of every numeric column lies inside
`[Q1 - 1.5·IQR, Q3 + 1.5·IQR]` where `Q1`, `Q3` are the quartiles of that
column's values *before* capping; in particular (second conjunct), the
numeric column `[1,2,3,4,100]` has the value `100` replaced by
`Q3 + 1.5·IQR = 7` computed from that exact 5-value sample. -/
theorem c4_outlier_cap_bounds :
    (∀ (df : Frame), (df.map ColE.name).Nodup →
      ∀ (i : ℕ) (c c' : ColE), df.get? i = some c →
        ((handle_outliers "cap" df).1).get? i = some c' →
        c.dtype = DType.numeric →
        ∀ v ∈ nonNullQs c'.cells,
          quantileSorted (sortedVals c.cells) (1/4) -
              1.5 * (quantileSorted (sortedVals c.cells) (3/4) -
                quantileSorted (sortedVals c.cells) (1/4)) ≤ v ∧
            v ≤ quantileSorted (sortedVals c.cells) (3/4) +
              1.5 * (quantileSorted (sortedVals c.cells) (3/4) -
                quantileSorted (sortedVals c.cells) (1/4))) ∧
    (handle_outliers "cap" outlierFrame).1 =
      [{ name := "x", dtype := DType.numeric,
         cells := [Cell.q (some 1), Cell.q (some 2), Cell.q (some 3),
                   Cell.q (some 4), Cell.q (some 7)] }] := by
  constructor
  · intro df hnd i c c' hc hc' hdt v hv
    rw [handle_outliers_cap_eq_map df hnd] at hc'
    rw [List.get?_map, hc] at hc'
    have hc'eq : c' = if c.dtype = DType.numeric then capColE c else c :=
      (Option.some.inj hc').symm
    rw [if_pos hdt] at hc'eq
    rw [hc'eq] at hv
    have := capColE_bounds c v hv
    exact this
  · with_unfolding_all decide

/-- Witness for `c4_outlier_cap_bounds`: Scenario D, instantiated through
the universally quantified part of the theorem. -/
theorem c4_outlier_cap_bounds_witness :
    (outlierFrame.map ColE.name).Nodup ∧
      ∀ v ∈ nonNullQs [Cell.q (some 1), Cell.q (some 2), Cell.q (some 3),
          Cell.q (some 4), Cell.q (some 7)],
        quantileSorted (sortedVals [Cell.q (some 1), Cell.q (some 2),
            Cell.q (some 3), Cell.q (some 4), Cell.q (some 100)]) (1/4) -
            1.5 * (quantileSorted (sortedVals [Cell.q (some 1), Cell.q (some 2),
                Cell.q (some 3), Cell.q (some 4), Cell.q (some 100)]) (3/4) -
              quantileSorted (sortedVals [Cell.q (some 1), Cell.q (some 2),
                Cell.q (some 3), Cell.q (some 4), Cell.q (some 100)]) (1/4)) ≤ v ∧
          v ≤ quantileSorted (sortedVals [Cell.q (some 1), Cell.q (some 2),
              Cell.q (some 3), Cell.q (some 4), Cell.q (some 100)]) (3/4) +
            1.5 * (quantileSorted (sortedVals [Cell.q (some 1), Cell.q (some 2),
                Cell.q (some 3), Cell.q (some 4), Cell.q (some 100)]) (3/4) -
              quantileSorted (sortedVals [Cell.q (some 1), Cell.q (some 2),
                Cell.q (some 3), Cell.q (some 4), Cell.q (some 100)]) (1/4)) := by
  refine ⟨by decide, ?_⟩
  exact c4_outlier_cap_bounds.1 outlierFrame (by decide) 0
    { name := "x", dtype := DType.numeric,
      cells := [Cell.q (some 1), Cell.q (some 2), Cell.q (some 3),
                Cell.q (some 4), Cell.q (some 100)] }
    { name := "x", dtype := DType.numeric,
      cells := [Cell.q (some 1), Cell.q (some 2), Cell.q (some 3),
                Cell.q (some 4), Cell.q (some 7)] }
    rfl (by rw [c4_outlier_cap_bounds.2]; rfl) rfl

/-- **C10** `_handle_outliers` with `action='cap'` (iqr method) preserves
the row count, the column names (hence the column set) and dtypes, and
leaves every cell unchanged except possibly the non-missing numeric
values lying strictly outside their own column's IQR fences; non-numeric
columns are untouched entirely. -/
theorem c10_cap_frame_effect (df : Frame) (hnd : (df.map ColE.name).Nodup) :
    ((handle_outliers "cap" df).1).map ColE.name = df.map ColE.name ∧
      rowCount (handle_outliers "cap" df).1 = rowCount df ∧
      ∀ (i : ℕ) (c c' : ColE), df.get? i = some c →
        ((handle_outliers "cap" df).1).get? i = some c' →
        c'.name = c.name ∧ c'.dtype = c.dtype ∧
          c'.cells.length = c.cells.length ∧
          (c.dtype ≠ DType.numeric → c' = c) ∧
          ∀ j : ℕ, c'.cells.get? j = c.cells.get? j ∨
            ∃ v : ℚ, c.cells.get? j = some (Cell.q (some v)) ∧
              (v < (outlierBounds c.cells).1 ∨ (outlierBounds c.cells).2 < v) := by
  rw [handle_outliers_cap_eq_map df hnd]
  refine ⟨names_map_capIf df _, ?_, ?_⟩
  · cases df with
    | nil => rfl
    | cons c rest =>
      show (if c.dtype = DType.numeric then capColE c else c).cells.length =
        c.cells.length
      split_ifs with h
      · exact capColE_length c
      · rfl
  · intro i c c' hc hc'
    rw [List.get?_map, hc] at hc'
    have hc'eq : c' = if c.dtype = DType.numeric then capColE c else c :=
      (Option.some.inj hc').symm
    by_cases hdt : c.dtype = DType.numeric
    · rw [if_pos hdt] at hc'eq
      subst hc'eq
      refine ⟨capColE_name c, capColE_dtype c, capColE_length c,
        fun habs => absurd hdt habs, ?_⟩
      intro j
      unfold capColE
      by_cases hemp : (nonNullQs c.cells).isEmpty
      · rw [if_pos hemp]
        exact Or.inl rfl
      · rw [if_neg hemp]
        by_cases hcnt : 0 < (c.cells.filter
            (isOutlierCell (outlierBounds c.cells).1 (outlierBounds c.cells).2)).length
        · rw [if_pos hcnt]
          show (cap_pass _ _ c.cells).get? j = _ ∨ _
          unfold cap_pass
          rw [List.get?_map, List.get?_map]
          rcases hcell : c.cells.get? j with _ | cell
          · exact Or.inl rfl
          · rcases cell with w | w
            · rcases w with _ | v
              · exact Or.inl (by simp [capCellLow, capCellHigh, asQ])
              · by_cases hlo : v < (outlierBounds c.cells).1
                · exact Or.inr ⟨v, rfl, Or.inl hlo⟩
                · by_cases hhi : (outlierBounds c.cells).2 < v
                  · exact Or.inr ⟨v, rfl, Or.inr hhi⟩
                  · refine Or.inl ?_
                    have h1 : capCellLow (outlierBounds c.cells).1
                        (Cell.q (some v)) = Cell.q (some v) := by
                      simp [capCellLow, asQ, hlo]
                    have h2 : capCellHigh (outlierBounds c.cells).2
                        (Cell.q (some v)) = Cell.q (some v) := by
                      simp [capCellHigh, asQ, hhi]
                    simp [h1, h2]
            · exact Or.inl (by simp [capCellLow, capCellHigh, asQ])
        · rw [if_neg hcnt]
          exact Or.inl rfl
    · rw [if_neg hdt] at hc'eq
      subst hc'eq
      exact ⟨rfl, rfl, rfl, fun _ => rfl, fun j => Or.inl rfl⟩

/-- Witness for `c10_cap_frame_effect` at Scenario D's frame. -/
theorem c10_cap_frame_effect_witness :
    (outlierFrame.map ColE.name).Nodup ∧
      ((handle_outliers "cap" outlierFrame).1).map ColE.name =
        outlierFrame.map ColE.name ∧
      rowCount (handle_outliers "cap" outlierFrame).1 = rowCount outlierFrame :=
  ⟨by decide, (c10_cap_frame_effect outlierFrame (by decide)).1,
    (c10_cap_frame_effect outlierFrame (by decide)).2.1⟩

/-! ### `_analyze_dataset_characteristics` (`eda_engine.py` lines 96-172) -/

/-- Substring test (Python `in` on strings). -/
def strContainsSub (hay pat : String) : Bool :=
  hay.toList.tails.any (fun suf => pat.toList.isPrefixOf suf)

/-- The geospatial name keywords of line 124. -/
def geo_terms : List String :=
  ["lat", "lon", "lng", "latitude", "longitude", "coord", "geo"]

/-- Line 123: column name (lowercased) contains a geo keyword. -/
def is_geospatial_name (name : String) : Bool :=
  geo_terms.any (fun term => strContainsSub (pyLower name) term)

/-- Lines 111-115: a categorical column counts as text when the average
`astype(str)` length exceeds 50 or the distinct-value ratio exceeds 0.8. -/
def isTextCol (rows : ℕ) (c : ColE) : Bool :=
  let unique_ratio : ℚ := (nuniqueCells c.cells : ℚ) / (rows : ℚ)
  let avg_length : ℚ :=
    ((c.cells.map (fun cell => ((cellStr cell).length : ℚ))).sum) / (rows : ℚ)
  decide (avg_length > 50) || decide (unique_ratio > 0.8)

/-- The non-missing cells of a column (pandas `value_counts` drops `NaN`). -/
def nonNullCells (cells : List Cell) : List Cell :=
  cells.filter (fun c => !cellIsNull c)

/-- The class counts of `value_counts()` (one count per distinct
non-missing value). -/
def classCounts (cells : List Cell) : List ℕ :=
  (nonNullCells cells).dedup.map
    (fun v => ((nonNullCells cells).filter (fun w => w = v)).length)

/-- `value_counts(normalize=True).iloc[0]`: the largest class share. -/
def value_counts_max_share (cells : List Cell) : ℚ :=
  (((classCounts cells).foldr max 0 : ℕ) : ℚ) / ((nonNullCells cells).length : ℚ)

/-- `value_counts(normalize=True).iloc[-1]`: the smallest class share. -/
def value_counts_min_share (cells : List Cell) : ℚ :=
  (((classCounts cells).foldr min (nonNullCells cells).length : ℕ) : ℚ) /
    ((nonNullCells cells).length : ℚ)

/-- Lines 144-147: the imbalance check on the target column's values —
only performed when the target has more than one distinct class. -/
def compute_is_imbalanced (cells : List Cell) : Bool :=
  if 1 < nuniqueCells cells then
    decide (value_counts_max_share cells > 0.8) ||
      decide (value_counts_min_share cells < 0.1)
  else false

/-- Lines 140-147 packaged: `is_imbalanced` is false without a target, a
missing target column, or a non-categorical target dtype (the model has
no separate `bool` dtype; boolean-valued columns are out of scope of the
verified claims). -/
def imbalance_flag (df : Frame) (target_column : Option String) : Bool :=
  match target_column with
  | none => false
  | some t =>
    match df.find? (fun c => c.name = t) with
    | none => false
    | some c =>
      if c.dtype = DType.object ∨ c.dtype = DType.category then
        compute_is_imbalanced c.cells
      else false

/-- `df.duplicated().sum()`: number of rows equal to an earlier row. -/
def duplicatedCount (df : Frame) : ℕ :=
  (rowsOf df).length - (maskFilter (firstOccMask (rowsOf df)) (rowsOf df)).length

/-- `_analyze_dataset_characteristics` (lines 96-172).  Divisions whose
Python counterpart produces `NaN` (zero-row or zero-column frames) are
modelled as `0`; every comparison the code performs on such a `NaN`
(`> 50`, `> 0.8`, `> 20`, `> 10`) is false in Python and false on `0`
here, except the 0-row `unique_ratio` whose Python evaluation raises —
the verified claims therefore assume at least one row where this
matters. -/
def analyze_dataset_characteristics (df : Frame)
    (target_column : Option String) : DatasetCharacteristics :=
  let rows := rowCount df
  let columns := df.length
  let numeric_cols := df.filter (fun c => c.dtype = DType.numeric)
  let categorical_cols := df.filter
    (fun c => c.dtype = DType.object ∨ c.dtype = DType.category)
  let datetime_cols := df.filter (fun c => c.dtype = DType.datetime)
  let text_cols := categorical_cols.filter (isTextCol rows)
  let high_cardinality_cols := categorical_cols.filter
    (fun c => !(isTextCol rows c) && decide (nuniqueCells c.cells > 50))
  let geospatial_cols := df.filter (fun c => is_geospatial_name c.name)
  let is_time_series := decide (datetime_cols.length > 0) ||
    df.any (fun c => strContainsSub (pyLower c.name) "time" ||
      strContainsSub (pyLower c.name) "date")
  let is_high_dimensional := columns > 20 ∨ numeric_cols.length > 15
  let missing_percentage : ℚ :=
    ((totalNulls df : ℚ) / ((rows : ℚ) * (columns : ℚ))) * 100
  let duplicate_percentage : ℚ := ((duplicatedCount df : ℚ) / (rows : ℚ)) * 100
  let has_target_variable := target_column.isSome &&
    (match target_column with
     | some t => (df.find? (fun c => c.name = t)).isSome
     | none => false)
  let is_imbalanced := imbalance_flag df target_column
  let complexity_score := calculate_complexity_score rows columns
    numeric_cols.length categorical_cols.length text_cols.length
    high_cardinality_cols.length is_time_series geospatial_cols.length
    missing_percentage
  { rows := rows
    columns := columns
    numeric_columns := numeric_cols.length
    categorical_columns := categorical_cols.length
    text_columns := text_cols.length
    datetime_columns := datetime_cols.length
    geospatial_columns := geospatial_cols.length
    high_cardinality_columns := high_cardinality_cols.length
    missing_percentage := missing_percentage
    duplicate_percentage := duplicate_percentage
    is_time_series := is_time_series
    is_high_dimensional := decide is_high_dimensional
    is_imbalanced := is_imbalanced
    has_target_variable := has_target_variable
    complexity_score := complexity_score }

/-- Ten numeric cells, three of them missing: `missing_percentage = 30`
puts the quality addend at its `+10` tier. -/
def c5BaseCells : List Cell :=
  [Cell.q none, Cell.q none, Cell.q none, Cell.q (some 1), Cell.q (some 2),
   Cell.q (some 3), Cell.q (some 4), Cell.q (some 5), Cell.q (some 6),
   Cell.q (some 7)]

/-- **C5 counterexample** Appending 30 complete rows of the same
(numeric) type to a 10-row column with 3 missing values *decreases* the
complexity score from 22 to 12: the missing percentage drops from 30% to
7.5%, losing the `+10` quality addend while every other addend is
unchanged.  This refutes monotonicity of `complexity_score` under
row-appending. -/
theorem c5_counterexample :
    (analyze_dataset_characteristics
        [{ name := "v", dtype := DType.numeric,
           cells := c5BaseCells ++ List.replicate 30 (Cell.q (some 1)) }]
        none).complexity_score <
      (analyze_dataset_characteristics
        [{ name := "v", dtype := DType.numeric, cells := c5BaseCells }]
        none).complexity_score := by
  with_unfolding_all decide

theorem calculate_complexity_score_range (rows columns numeric_cols
    categorical_cols text_cols high_cardinality_cols : ℕ)
    (is_time_series : Bool) (geospatial_cols : ℕ) (missing_percentage : ℚ) :
    0 ≤ calculate_complexity_score rows columns numeric_cols categorical_cols
        text_cols high_cardinality_cols is_time_series geospatial_cols
        missing_percentage ∧
      calculate_complexity_score rows columns numeric_cols categorical_cols
        text_cols high_cardinality_cols is_time_series geospatial_cols
        missing_percentage ≤ 100 := by
  unfold calculate_complexity_score
  constructor
  · have h1 : (0:ℚ) ≤ (if rows > 10000 then (15:ℚ) else if rows > 1000 then 10 else 5) := by
      split_ifs <;> norm_num
    have h2 : (0:ℚ) ≤ (if columns > 50 then (20:ℚ) else if columns > 20 then 15
        else if columns > 10 then 10 else 5) := by
      split_ifs <;> norm_num
    have h3 : (0:ℚ) ≤ min ((numeric_cols : ℚ) * 2) 20 :=
      le_min (by positivity) (by norm_num)
    have h4 : (0:ℚ) ≤ min ((categorical_cols : ℚ) * 1.5) 15 :=
      le_min (by positivity) (by norm_num)
    have h5 : (0:ℚ) ≤ min ((text_cols : ℚ) * 3) 15 :=
      le_min (by positivity) (by norm_num)
    have h6 : (0:ℚ) ≤ min ((high_cardinality_cols : ℚ) * 2) 10 :=
      le_min (by positivity) (by norm_num)
    have h7 : (0:ℚ) ≤ (if is_time_series then (10:ℚ) else 0) := by
      split_ifs <;> norm_num
    have h8 : (0:ℚ) ≤ (if geospatial_cols > 0 then (10:ℚ) else 0) := by
      split_ifs <;> norm_num
    have h9 : (0:ℚ) ≤ (if missing_percentage > 20 then (10:ℚ)
        else if missing_percentage > 10 then 5 else 0) := by
      split_ifs <;> norm_num
    refine le_min ?_ (by norm_num)
    linarith
  · exact min_le_right _ _

/-- **C5 (amended)** The `complexity_score` produced by
`_analyze_dataset_characteristics` always lies in `[0, 100]`; appending
rows or columns of the same type can, however, *decrease* the score
(when it lowers `missing_percentage` below a quality tier, or
reclassifies text/high-cardinality columns), so the monotonicity half of
the original claim is false. -/
theorem c5_score_range (df : Frame) (target : Option String)
    (hrows : 0 < rowCount df) (hcols : 0 < df.length) :
    0 ≤ (analyze_dataset_characteristics df target).complexity_score ∧
      (analyze_dataset_characteristics df target).complexity_score ≤ 100 :=
  calculate_complexity_score_range _ _ _ _ _ _ _ _ _

/-- One numeric column, one row: the smallest frame in the faithfulness
domain of the analyzer. -/
def c5WitnessFrame : Frame :=
  [{ name := "a", dtype := DType.numeric, cells := [Cell.q (some 1)] }]

/-- Witness for `c5_score_range` at a one-column, one-row frame. -/
theorem c5_score_range_witness :
    0 < rowCount c5WitnessFrame ∧ 0 < c5WitnessFrame.length ∧
      (0 ≤ (analyze_dataset_characteristics c5WitnessFrame
          none).complexity_score ∧
        (analyze_dataset_characteristics c5WitnessFrame
          none).complexity_score ≤ 100) :=
  ⟨by decide, by decide,
    c5_score_range c5WitnessFrame none (by decide) (by decide)⟩

/-- A single-class categorical target: its majority share is 1. -/
def c8Frame : Frame :=
  [{ name := "y", dtype := DType.object,
     cells := [Cell.s (some "a"), Cell.s (some "a")] }]

/-- **C8 counterexample** A present, categorical-dtype target whose only
class has share `1 > 0.8` is *not* flagged imbalanced: the code requires
`len(value_counts) > 1` before testing the shares, so the claimed
"if and only if" fails for single-class targets. -/
theorem c8_counterexample :
    (analyze_dataset_characteristics c8Frame (some "y")).is_imbalanced = false ∧
      value_counts_max_share [Cell.s (some "a"), Cell.s (some "a")] > 0.8 := by
  constructor
  · with_unfolding_all decide
  · with_unfolding_all decide

/-- **C8 (amended)** For every dataset and target column present with a
categorical-like dtype *and at least two distinct non-missing classes*,
`is_imbalanced` is true iff the most frequent class share exceeds 0.8 or
the least frequent class share is below 0.1; with a single class it is
always false. -/
theorem c8_imbalance (df : Frame) (t : String) (c : ColE)
    (hfind : df.find? (fun col => col.name = t) = some c)
    (hdt : c.dtype = DType.object ∨ c.dtype = DType.category)
    (hcls : 1 < nuniqueCells c.cells) :
    (analyze_dataset_characteristics df (some t)).is_imbalanced =
      (decide (value_counts_max_share c.cells > 0.8) ||
        decide (value_counts_min_share c.cells < 0.1)) := by
  have hfield : (analyze_dataset_characteristics df (some t)).is_imbalanced =
      imbalance_flag df (some t) := rfl
  rw [hfield]
  unfold imbalance_flag
  dsimp only
  rw [hfind]
  dsimp only
  rw [if_pos hdt]
  unfold compute_is_imbalanced
  rw [if_pos hcls]

/-- A 6-row target with shares 5/6 and 1/6 for the `c8_imbalance`
witness. -/
def c8WitnessFrame : Frame :=
  [{ name := "y", dtype := DType.object,
     cells := [Cell.s (some "a"), Cell.s (some "a"), Cell.s (some "a"),
               Cell.s (some "a"), Cell.s (some "a"), Cell.s (some "b")] }]

/-- The target column of `c8WitnessFrame`. -/
def c8WitnessCol : ColE :=
  { name := "y", dtype := DType.object,
    cells := [Cell.s (some "a"), Cell.s (some "a"), Cell.s (some "a"),
              Cell.s (some "a"), Cell.s (some "a"), Cell.s (some "b")] }

/-- Witness for `c8_imbalance`: majority share `5/6 > 0.8` flags the
target imbalanced. -/
theorem c8_imbalance_witness :
    c8WitnessFrame.find? (fun col => col.name = "y") = some c8WitnessCol ∧
      1 < nuniqueCells c8WitnessCol.cells ∧
      (analyze_dataset_characteristics c8WitnessFrame (some "y")).is_imbalanced =
        (decide (value_counts_max_share c8WitnessCol.cells > 0.8) ||
          decide (value_counts_min_share c8WitnessCol.cells < 0.1)) :=
  ⟨by decide, by decide,
    c8_imbalance c8WitnessFrame "y" c8WitnessCol (by decide) (Or.inl rfl)
      (by decide)⟩

/-! ### Stage 2: `_correct_data_types` (lines 200-241) -/

/-- Characters kept by the `str.replace(r'[^\d.-]', '')` strip of
line 215. -/
def keepNumChar (ch : Char) : Bool := ch.isDigit || ch = '.' || ch = '-'

/-- Line 214-215: `astype(str).str.strip()` then drop every character
other than digits, `.` and `-`. -/
def cleanNumericStr (s : String) : String :=
  String.mk ((pyStrip s).data.filter keepNumChar)

/-- Value of a digit run. -/
def digitsVal (ds : List Char) : ℕ :=
  ds.foldl (fun acc d => acc * 10 + (d.toNat - '0'.toNat)) 0

/-- Modelled library behavior: success of
`pd.to_numeric(..., errors='coerce')` on one stripped string — an
optional leading `-`, then digits with at most one `.` and at least one
digit (after the `[^\d.-]` strip only digits, dots and dashes can
remain; any other dash placement or repeated dot fails to parse). -/
def parseNumeric (s : String) : Option ℚ :=
  let body := match s.data with
    | '-' :: rest => rest
    | chars => chars
  let neg : Bool := match s.data with
    | '-' :: _ => true
    | _ => false
  if body.any (fun ch => !(ch.isDigit || ch = '.')) then none
  else if !(body.any Char.isDigit) then none
  else if 1 < (body.filter (fun ch => ch = '.')).length then none
  else
    let intPart := body.takeWhile (fun ch => ch ≠ '.')
    let fracPart := (body.dropWhile (fun ch => ch ≠ '.')).drop 1
    let v : ℚ := (digitsVal intPart : ℚ) +
      (digitsVal fracPart : ℚ) / ((10 : ℚ) ^ fracPart.length)
    some (if neg then -v else v)

/-- Modelled library behavior: success of
`pd.to_datetime(..., errors='coerce')` on one string value.  The model
recognizes ISO `YYYY-MM-DD` dates, mapped to a day ordinal; everything
else (including the short digit strings exercised by the claims)
coerces to `NaT`.  Non-string cells coerce to `NaT` as well. -/
def parseDatetime (s : String) : Option ℚ :=
  match s.splitOn "-" with
  | [y, m, d] =>
    if y.length = 4 && y.data.all Char.isDigit && m.length = 2 &&
        m.data.all Char.isDigit && d.length = 2 && d.data.all Char.isDigit then
      if 1 ≤ digitsVal m.data && digitsVal m.data ≤ 12 &&
          1 ≤ digitsVal d.data && digitsVal d.data ≤ 31 then
        some ((digitsVal y.data * 372 + (digitsVal m.data - 1) * 31 +
          (digitsVal d.data - 1) : ℕ) : ℚ)
      else none
    else none
  | _ => none

/-- `numeric_series.notna().sum() / len(df)` of lines 218-220. -/
def numeric_parse_fraction (rows : ℕ) (cells : List Cell) : ℚ :=
  (((cells.map (fun cell => parseNumeric (cleanNumericStr (cellStr cell)))).filterMap
      id).length : ℚ) / (rows : ℚ)

/-- `datetime_series.notna().sum() / len(df)` of lines 228-230. -/
def datetime_parse_fraction (rows : ℕ) (cells : List Cell) : ℚ :=
  (((cells.map (fun cell => match asS cell with
      | some s => parseDatetime s
      | none => none)).filterMap id).length : ℚ) / (rows : ℚ)

/-- The per-column decision of `_correct_data_types` for an object
column: numeric when strictly more than 80% of the cleaned values parse
as numbers, else datetime when strictly more than 50% parse as
timestamps, else categorical when the distinct-value ratio is below 0.1
or the distinct-value count is below 20, else unchanged.  `rows` is
`len(df)`. -/
def correct_object_column (rows : ℕ) (cells : List Cell) : DType × List Cell :=
  if numeric_parse_fraction rows cells > 0.8 then
    (DType.numeric,
     cells.map (fun cell => Cell.q (parseNumeric (cleanNumericStr (cellStr cell)))))
  else if datetime_parse_fraction rows cells > 0.5 then
    (DType.datetime,
     cells.map (fun cell => Cell.q (match asS cell with
       | some s => parseDatetime s
       | none => none)))
  else if ((nuniqueCells cells : ℚ) / (rows : ℚ) < 0.1) ∨ nuniqueCells cells < 20 then
    (DType.category, cells)
  else (DType.object, cells)

/-- `_correct_data_types` (stage 2): numeric and datetime columns are
skipped, object columns go through `correct_object_column`, category
columns fall through unchanged (the `dtype == 'object'` test is false
for them). -/
def correct_data_types (df : Frame) : Frame :=
  df.map fun c =>
    if c.dtype = DType.numeric ∨ c.dtype = DType.datetime then c
    else if c.dtype = DType.object then
      { c with dtype := (correct_object_column (rowCount df) c.cells).1,
               cells := (correct_object_column (rowCount df) c.cells).2 }
    else c

/-- The boundary column for C7: exactly 4 of 5 values (80%, not more)
parse as numbers. -/
def c7Cells : List Cell :=
  [Cell.s (some "1"), Cell.s (some "2"), Cell.s (some "3"), Cell.s (some "4"),
   Cell.s (some "x")]

/-- **C7 counterexample** On a 5-value object column where exactly 80% of
the values parse as numbers, the code does *not* convert to numeric (the
test is strict `> 0.8`), contradicting the claim's "at least 80%": the
column ends up categorical instead. -/
theorem c7_counterexample :
    numeric_parse_fraction 5 c7Cells = 4/5 ∧
      (correct_object_column 5 c7Cells).1 = DType.category := by
  constructor
  · with_unfolding_all decide
  · with_unfolding_all decide

/-- **C7 (amended)** In `_correct_data_types`, for every object column
that is not already numeric or datetime: it is converted to numeric
exactly when *strictly more than* 80% of its values parse as numbers
after the `[^\d.-]` strip; otherwise to datetime exactly when *strictly
more than* 50% parse as timestamps; otherwise to categorical exactly
when the distinct-value ratio is below 0.1 or the distinct-value count
is below 20 (both strict, as claimed). -/
theorem c7_type_correction (rows : ℕ) (cells : List Cell) (hrows : 0 < rows) :
    ((correct_object_column rows cells).1 = DType.numeric ↔
        numeric_parse_fraction rows cells > 0.8) ∧
      ((correct_object_column rows cells).1 = DType.datetime ↔
        (¬ numeric_parse_fraction rows cells > 0.8 ∧
          datetime_parse_fraction rows cells > 0.5)) ∧
      ((correct_object_column rows cells).1 = DType.category ↔
        (¬ numeric_parse_fraction rows cells > 0.8 ∧
          ¬ datetime_parse_fraction rows cells > 0.5 ∧
          (((nuniqueCells cells : ℚ) / (rows : ℚ) < 0.1) ∨
            nuniqueCells cells < 20))) := by
  unfold correct_object_column
  by_cases h1 : numeric_parse_fraction rows cells > 0.8
  all_goals by_cases h2 : datetime_parse_fraction rows cells > 0.5
  all_goals by_cases h3 : ((nuniqueCells cells : ℚ) / (rows : ℚ) < 0.1) ∨
    nuniqueCells cells < 20
  all_goals simp [h1, h2, h3]

/-- All-numeric strings for the `c7_type_correction` witness. -/
def c7WitnessCells : List Cell :=
  [Cell.s (some "1"), Cell.s (some "2"), Cell.s (some "3"), Cell.s (some "4"),
   Cell.s (some "5")]

/-- Witness for `c7_type_correction`: 100% of values parse, so the
column converts to numeric. -/
theorem c7_type_correction_witness :
    0 < 5 ∧
      ((correct_object_column 5 c7WitnessCells).1 = DType.numeric ↔
        numeric_parse_fraction 5 c7WitnessCells > 0.8) :=
  ⟨by decide, (c7_type_correction 5 c7WitnessCells (by decide)).1⟩

/-! ### Stage 1: `_handle_missing_data` (lines 118-198), default config:
no indicator columns, `column_missing_threshold = 0.5`,
`row_missing_threshold = 0.7`, `imputation_strategy = 'smart'`, no KNN
pass. -/

/-- `df[col].isnull().sum() / len(df)` (line 137). -/
def col_missing_fraction (rows : ℕ) (c : ColE) : ℚ :=
  ((c.cells.filter cellIsNull).length : ℚ) / (rows : ℚ)

/-- pandas `Series.mean()` over the non-missing values. -/
def seriesMean (vals : List ℚ) : ℚ := vals.sum / (vals.length : ℚ)

/-- pandas `Series.median()`: the 0.5 quantile with linear
interpolation. -/
def seriesMedian (vals : List ℚ) : ℚ :=
  quantileSorted (List.insertionSort (· ≤ ·) vals) (1/2)

/-- The `'smart'` imputation test `abs(df[col].skew()) > 1` (line 176),
decided through the equivalent squared rational inequality
`n(n-1)·m3² > (n-2)²·m2³` (the square root in the adjusted
Fisher-Pearson coefficient is irrational; its absolute comparison with 1
is equivalent to this).  pandas yields `NaN` skew for fewer than 3
values and `0` for a constant series; `abs` of either is not `> 1`. -/
def smart_uses_median (vals : List ℚ) : Bool :=
  let n := vals.length
  if n < 3 then false
  else
    let mean := seriesMean vals
    let m2 := (vals.map (fun v => (v - mean) ^ 2)).sum / (n : ℚ)
    let m3 := (vals.map (fun v => (v - mean) ^ 3)).sum / (n : ℚ)
    if m2 = 0 then false
    else decide ((n : ℚ) * ((n : ℚ) - 1) * m3 ^ 2 > ((n : ℚ) - 2) ^ 2 * m2 ^ 3)

/-- `fillna(repl)` on one cell. -/
def fillCell (repl : Cell) (cell : Cell) : Cell :=
  if cellIsNull cell then repl else cell

/-- pandas `Series.mode().iloc[0]` for string-valued columns: the
lexicographically least among the most frequent non-missing values
(`mode()` returns the modes sorted ascending), `'Unknown'` when there
are none (line 183).  Non-string values inside an object column are
outside the scope of the verified claims and are ignored by the
model. -/
def modeStr (cells : List Cell) : String :=
  let vals := cells.filterMap asS
  let distinct := List.insertionSort (· ≤ ·) vals.dedup
  let maxCount := (distinct.map (fun v => (vals.filter (· = v)).length)).foldr max 0
  ((distinct.filter (fun v => (vals.filter (· = v)).length = maxCount)).headD
    "Unknown")

/-- Forward fill (`fillna(method='ffill')`). -/
def ffillAux (last : Option Cell) : List Cell → List Cell
  | [] => []
  | c :: rest =>
    if cellIsNull c then
      (match last with | some l => l | none => c) :: ffillAux last rest
    else c :: ffillAux (some c) rest

/-- `ffill` then `bfill` (lines 188-189). -/
def ffill_bfill (cells : List Cell) : List Cell :=
  ((ffillAux none ((ffillAux none cells).reverse)).reverse)

/-- The imputation loop body (lines 166-189) for one column: numeric
columns use the `'smart'` mean/median choice, object and category
columns use the mode (or `'Unknown'`), datetime columns forward- then
backward-fill.  A column without missing values is untouched
(`isnull().sum() > 0` guard); a numeric column with no observed values
gets `fillna(NaN)`, a no-op. -/
def impute_column (c : ColE) : ColE :=
  if (c.cells.filter cellIsNull).length = 0 then c
  else match c.dtype with
  | DType.numeric =>
    if (nonNullQs c.cells).isEmpty then c
    else
      { c with cells := c.cells.map (fillCell (Cell.q (some
          (if smart_uses_median (nonNullQs c.cells) then
            seriesMedian (nonNullQs c.cells)
          else seriesMean (nonNullQs c.cells))))) }
  | DType.object =>
    { c with cells := c.cells.map (fillCell (Cell.s (some (modeStr c.cells)))) }
  | DType.category =>
    { c with cells := c.cells.map (fillCell (Cell.s (some (modeStr c.cells)))) }
  | DType.datetime => { c with cells := ffill_bfill c.cells }

/-- `_handle_missing_data` with the default `missing_config`: drop
columns more than 50% missing (one log entry, row count unchanged), drop
rows more than 70% missing (one log entry with the stage-start count as
`rows_before`), then impute.  Indicator columns are off, so the
`_was_missing` suffix check only protects input columns that already
carry that name. -/
def handle_missing_data (df : Frame) : Frame × List LogEntry :=
  let rows_before := rowCount df
  let dropCol : ColE → Bool := fun c =>
    !(c.name.endsWith "_was_missing") &&
      decide (col_missing_fraction rows_before c > 0.5)
  let cols_to_drop := (df.filter dropCol).map ColE.name
  let df1 := df.filter (fun c => !(dropCol c))
  let log1 :=
    if cols_to_drop.isEmpty then []
    else [log_operation "remove_missing_columns"
      ("Removed columns with >50.0% missing: " ++
        String.intercalate ", " cols_to_drop)
      rows_before (rowCount df1)]
  let keep := (rowsOf df1).map (fun r =>
    decide ((((r.filter cellIsNull).length : ℚ) / (df1.length : ℚ)) ≤ 0.7))
  let df2 := filterRows keep df1
  let rows_removed := rows_before - rowCount df2
  let log2 :=
    if 0 < rows_removed then
      [log_operation "remove_missing_rows"
        ("Removed " ++ toString rows_removed ++ " rows with >70.0% missing values")
        rows_before (rowCount df2)]
    else []
  (df2.map impute_column, log1 ++ log2)

/-! ### Stage 6: `_clean_text_data` (lines 377-459), default config:
`normalize_case` and `remove_extra_spaces` and `standardize_values` on,
everything else off. -/

/-- `str.replace(r'\s+', ' ')`: collapse whitespace runs to one space. -/
def collapseSpacesAux : List Char → List Char
  | [] => []
  | c :: rest =>
    if c.isWhitespace then
      ' ' :: collapseSpacesAux (rest.dropWhile Char.isWhitespace)
    else c :: collapseSpacesAux rest
termination_by l => l.length
decreasing_by
  · have := (List.dropWhile_suffix (l := rest)
      (p := Char.isWhitespace)).sublist.length_le
    simp only [List.length_cons]
    omega
  · simp

def collapseSpaces (s : String) : String := String.mk (collapseSpacesAux s.data)

/-- Word characters for the `\b` boundaries of the value-standardization
regexes. -/
def isWordChar (c : Char) : Bool := c.isAlphanum || c = '_'

/-- Case-insensitive literal prefix match, returning the rest. -/
def stripPrefixCI : List Char → List Char → Option (List Char)
  | [], s => some s
  | _ :: _, [] => none
  | a :: as, c :: cs => if a.toLower = c.toLower then stripPrefixCI as cs else none

/-- One `re.sub(alt1|alt2|..., repl, s, case=False)` pass where every
alternative is `\b`-bounded: scan left to right, at each
word-boundary position try the alternatives in order, require a word
boundary after the match, emit the replacement and continue *after* the
matched input (the replacement text is not rescanned; the boundary state
after a match is that of the matched text's final character, a word
character for every pattern in the dictionary).  Fuel-driven recursion
(the fuel is the string length; every step consumes at least one
character because no alternative is empty). -/
def replaceAltsAux (alts : List (List Char)) (repl : List Char) :
    ℕ → Bool → List Char → List Char
  | 0, _, s => s
  | _ + 1, _, [] => []
  | fuel + 1, prevIsWord, s@(c :: cs) =>
    if prevIsWord then c :: replaceAltsAux alts repl fuel (isWordChar c) cs
    else
      match alts.findSome? (fun alt =>
        match stripPrefixCI alt s with
        | some rest =>
          if (match rest with | [] => true | r :: _ => !isWordChar r) then some rest
          else none
        | none => none) with
      | some rest => repl ++ replaceAltsAux alts repl fuel true rest
      | none => c :: replaceAltsAux alts repl fuel (isWordChar c) cs

def replaceAlts (alts : List String) (repl : String) (s : String) : String :=
  String.mk (replaceAltsAux (alts.map String.data) repl.data s.data.length false
    s.data)

/-- The `common_replacements` dictionary of lines 420-430, in insertion
order; each entry is one regex pass. -/
def common_replacements : List (List String × String) :=
  [(["yes", "y", "true", "1"], "yes"),
   (["no", "n", "false", "0"], "no"),
   (["male", "m"], "male"),
   (["female", "f"], "female"),
   (["usa", "united states", "us"], "united states"),
   (["uk", "united kingdom", "britain"], "united kingdom"),
   (["email", "e-mail", "email address"], "email"),
   (["phone", "telephone", "tel", "mobile"], "phone")]

def standardize_values (s : String) : String :=
  common_replacements.foldl (fun acc p => replaceAlts p.1 p.2 acc) s

/-- The default text-cleaning of one object-column cell:
`astype(str)` (missing prints as `"nan"`), strip, lowercase, collapse
whitespace, then the value-standardization passes. -/
def clean_text_cell (cell : Cell) : Cell :=
  Cell.s (some (standardize_values (collapseSpaces (pyLower (pyStrip
    (cellStr cell))))))

/-- `_clean_text_data` with the default `text_config`: only object
columns are touched. -/
def clean_text_data (df : Frame) : Frame :=
  df.map fun c =>
    if c.dtype = DType.object then { c with cells := c.cells.map clean_text_cell }
    else c

/-! ### Stage 7: `_validate_data_integrity` (lines 461-488), default
config: `fix_date_logic = True`,
`domain_constraints = {age: [0,120], price: [0,∞)}`.  The function
contains **no** `log_operation` call, which is why its row drops leave
no audit entry. -/

/-- Swap the values of a start/end datetime pair on the rows where
start > end (`df.loc[invalid, [s,e]] = df.loc[invalid, [e,s]].values`);
comparisons against `NaT` are false. -/
def applySwap (mine other : List Cell) (invalid : List Bool) : List Cell :=
  (mine.zip (other.zip invalid)).map (fun p => if p.2.2 then p.2.1 else p.1)

def swap_invalid_dates (df : Frame) (s e : String) : Frame :=
  match df.find? (fun c => c.name = s), df.find? (fun c => c.name = e) with
  | some cs, some ce =>
    let invalid : List Bool := (cs.cells.zip ce.cells).map (fun p =>
      match asQ p.1, asQ p.2 with
      | some va, some vb => decide (vb < va)
      | _, _ => false)
    df.map fun c =>
      if c.name = s then { c with cells := applySwap c.cells ce.cells invalid }
      else if c.name = e then { c with cells := applySwap c.cells cs.cells invalid }
      else c
  | _, _ => df

/-- `df = df[df[col] >= m]` for a numeric (or datetime) column; rows
whose cell is missing compare false and are dropped.  A string-dtype
constraint column raises `TypeError` in pandas and is outside the
model: such columns are left unchanged. -/
def apply_constraint_min (df : Frame) (colName : String) (m : ℚ) : Frame :=
  match df.find? (fun c => c.name = colName) with
  | none => df
  | some c =>
    if c.dtype = DType.numeric ∨ c.dtype = DType.datetime then
      filterRows (c.cells.map (fun cell =>
        match asQ cell with
        | some v => decide (m ≤ v)
        | none => false)) df
    else df

/-- `df = df[df[col] <= m]`, same conventions. -/
def apply_constraint_max (df : Frame) (colName : String) (m : ℚ) : Frame :=
  match df.find? (fun c => c.name = colName) with
  | none => df
  | some c =>
    if c.dtype = DType.numeric ∨ c.dtype = DType.datetime then
      filterRows (c.cells.map (fun cell =>
        match asQ cell with
        | some v => decide (v ≤ m)
        | none => false)) df
    else df

def validate_data_integrity (df : Frame) : Frame :=
  let date_col_names := (df.filter (fun c => c.dtype = DType.datetime)).map ColE.name
  let df1 :=
    if 2 ≤ date_col_names.length then
      (date_col_names.filter (fun n => strContainsSub (pyLower n) "start")).foldl
        (fun acc s =>
          (date_col_names.filter (fun n => strContainsSub (pyLower n) "end")).foldl
            (fun acc2 e => swap_invalid_dates acc2 s e) acc)
        df
    else df
  let df2 := apply_constraint_min df1 "age" 0
  let df3 := apply_constraint_max df2 "age" 120
  apply_constraint_min df3 "price" 0

/-! ### Stage 8: `_fix_inconsistent_formats` (lines 490-507). -/

/-- `df[col].str.replace(r'[^\d]', '')`: keep digits; the `.str`
accessor maps missing and non-string elements to `NaN`. -/
def phoneClean : Cell → Cell
  | Cell.s (some s) => Cell.s (some (String.mk (s.data.filter Char.isDigit)))
  | _ => Cell.s none

/-- `df[col].str.lower().str.strip()` for email-like columns. -/
def emailClean : Cell → Cell
  | Cell.s (some s) => Cell.s (some (pyStrip (pyLower s)))
  | _ => Cell.s none

/-- `_fix_inconsistent_formats`: phone-like object columns lose
non-digits, email-like ones are lowercased/stripped, currency-like ones
are stripped to `[\d.-]` and coerced to numeric. -/
def fix_inconsistent_formats (df : Frame) : Frame :=
  df.map fun c =>
    if c.dtype = DType.object then
      if ["phone", "tel", "mobile"].any
          (fun k => strContainsSub (pyLower c.name) k) then
        { c with cells := c.cells.map phoneClean }
      else if strContainsSub (pyLower c.name) "email" then
        { c with cells := c.cells.map emailClean }
      else if ["price", "cost", "amount", "salary"].any
          (fun k => strContainsSub (pyLower c.name) k) then
        { c with dtype := DType.numeric,
                 cells := c.cells.map (fun cell => Cell.q (match asS cell with
                   | some s => parseNumeric (String.mk (s.data.filter keepNumChar))
                   | none => none)) }
      else c
    else c

/-! ### Stage 13: `_clean_geospatial` (lines 600-614), opt-in.  No
`log_operation` call exists in this function either. -/

/-- `df = df[(df[col] >= lo) & (df[col] <= hi)]`. -/
def geo_filter (df : Frame) (n : String) (lo hi : ℚ) : Frame :=
  match df.find? (fun c => c.name = n) with
  | none => df
  | some c =>
    filterRows (c.cells.map (fun cell =>
      match asQ cell with
      | some v => decide (lo ≤ v) && decide (v ≤ hi)
      | none => false)) df

def clean_geospatial (df : Frame) : Frame :=
  let lat_names := (df.filter (fun c =>
    strContainsSub (pyLower c.name) "lat")).map ColE.name
  let df1 := lat_names.foldl (fun acc n => geo_filter acc n (-90) 90) df
  let lon_names := (df1.filter (fun c =>
    strContainsSub (pyLower c.name) "lon" ||
      strContainsSub (pyLower c.name) "lng")).map ColE.name
  lon_names.foldl (fun acc n => geo_filter acc n (-180) 180) df1

/-! ### `comprehensive_clean` with `config=None`
(`_get_default_config`, lines 700-743): stages 1, 2, 3 (no fuzzy), 4
(iqr/cap), 6, 7, 8 are on; stages 5, 9-14 are off. -/

/-- The cleaning summary of `_generate_cleaning_summary` (lines
745-757).  The `data_quality_improvement` diagnostics involve standard
deviations (irrational) and are omitted from the model; no verified
claim references them. -/
structure CleaningSummary where
  original_shape : ℕ × ℕ
  final_shape : ℕ × ℕ
  rows_removed : ℤ
  columns_removed : ℤ
  cleaning_operations : ℕ
  cleaning_log : List LogEntry
deriving DecidableEq, Repr

def generate_cleaning_summary (orig cleaned : Frame) (log : List LogEntry) :
    CleaningSummary :=
  { original_shape := (rowCount orig, orig.length)
    final_shape := (rowCount cleaned, cleaned.length)
    rows_removed := (rowCount orig : ℤ) - (rowCount cleaned : ℤ)
    columns_removed := (orig.length : ℤ) - (cleaned.length : ℤ)
    cleaning_operations := log.length
    cleaning_log := log }

/-- `comprehensive_clean(df, None)`: the default-enabled stages in
source order, accumulating the audit log. -/
def comprehensive_clean_default (df : Frame) : Frame × List LogEntry :=
  let r1 := handle_missing_data df
  let df2 := correct_data_types r1.1
  let r3 := remove_duplicates false df2
  let r4 := handle_outliers "cap" r3.1
  let df5 := clean_text_data r4.1
  let df6 := validate_data_integrity df5
  let df7 := fix_inconsistent_formats df6
  (df7, r1.2 ++ r3.2 ++ r4.2)

/-! ### Input conversion (`data_processor.convert_to_dataframe`,
`eda_engine.intelligent_eda_analysis`,
`enhanced_data_cleaner.enhanced_clean_data`) -/

/-- A scalar value inside a row-record. -/
inductive PyVal where
  | num (v : ℚ)
  | str (s : String)
  | none'
deriving DecidableEq, Repr

/-- A row-record: ordered mapping of column name to scalar. -/
abbrev RowRec := List (String × PyVal)

/-- The Python exceptions raised by the entry points on the inputs under
verification. -/
inductive PyError where
  | valueError (msg : String)
  | zeroDivisionError
deriving DecidableEq, Repr

deriving instance DecidableEq for Except

/-- Keep the first occurrence of each element. -/
def dedupKeepFirst [DecidableEq α] (xs : List α) : List α :=
  maskFilter (firstOccMask xs) xs

def recLookup (r : RowRec) (k : String) : PyVal :=
  match r.find? (fun p => p.1 = k) with
  | some p => p.2
  | none => PyVal.none'

/-- Modelled library behavior: `pd.DataFrame(records)` — columns in
first-appearance order of the keys, missing keys become `NaN`, a column
is numeric when every present value is numeric and object otherwise. -/
def pdDataFrame (data : List RowRec) : Frame :=
  (dedupKeepFirst ((data.map (fun r => r.map Prod.fst)).join)).map (fun k =>
    let vals := data.map (fun r => recLookup r k)
    let isNumCol := vals.all (fun v => match v with
      | PyVal.str _ => false
      | _ => true)
    { name := k
      dtype := if isNumCol then DType.numeric else DType.object
      cells := vals.map (fun v => match v with
        | PyVal.num q => Cell.q (some q)
        | PyVal.str s => Cell.s (some s)
        | PyVal.none' => if isNumCol then Cell.q none else Cell.s none) })

/-- `convert_to_dataframe` (`data_processor.py` lines 239-256), record-
list branch: an empty list raises `ValueError("Empty data list
provided")`. -/
def convert_to_dataframe_list (data : List RowRec) : Except PyError Frame :=
  if data.isEmpty then Except.error (PyError.valueError "Empty data list provided")
  else Except.ok (pdDataFrame data)

/-- `intelligent_eda_analysis` (`eda_engine.py` lines 416-436) for
record-list input, modelled through its EDA-type routing step: the list
branch builds `pd.DataFrame(data)` with **no** emptiness check, analyzes
characteristics, and routes.  The strategy execution that follows
routing is unreachable for the inputs under verification (routing a
0-column frame raises `ZeroDivisionError` first). -/
def intelligent_eda_route (data : List RowRec) : Except PyError EDAType :=
  let df := pdDataFrame data
  match determine_eda_type (analyze_dataset_characteristics df Option.none) with
  | some t => Except.ok t
  | none => Except.error PyError.zeroDivisionError

/-- `enhanced_clean_data` (`enhanced_data_cleaner.py` lines 795-817) for
record-list input with `config=None`: builds the DataFrame with no
emptiness check and runs the default cleaning pipeline. -/
def enhanced_clean_data (data : List RowRec) :
    Except PyError (Frame × CleaningSummary) :=
  let df := pdDataFrame data
  let res := comprehensive_clean_default df
  Except.ok (res.1, generate_cleaning_summary df res.1 res.2)

/-- **C2 counterexample** The claim says all three public entry points
reject an empty record list with an input-format error.
`enhanced_clean_data([])` does not: it builds a 0×0 DataFrame with no
emptiness check and returns a successful cleaning result over it, and
`intelligent_eda_analysis([])` fails with `ZeroDivisionError` inside the
EDA-type router rather than rejecting the input. -/
theorem c2_counterexample :
    enhanced_clean_data [] = Except.ok (([] : Frame),
        { original_shape := (0, 0), final_shape := (0, 0), rows_removed := 0,
          columns_removed := 0, cleaning_operations := 0, cleaning_log := [] }) ∧
      intelligent_eda_route [] = Except.error PyError.zeroDivisionError := by
  constructor
  · with_unfolding_all decide
  · with_unfolding_all decide

/-- **C2 (amended)** Of the three public entry points, only
`convert_to_dataframe` rejects an empty record list with an input error
(`ValueError("Empty data list provided")`).  `intelligent_eda_analysis`
builds a 0-row, 0-column DataFrame and then crashes with
`ZeroDivisionError` during EDA-type routing, and `enhanced_clean_data`
accepts the empty list outright, returning a cleaning result whose
original and final shapes are both `(0, 0)` with an empty audit log. -/
theorem c2_empty_input_behavior :
    convert_to_dataframe_list [] =
        Except.error (PyError.valueError "Empty data list provided") ∧
      intelligent_eda_route [] = Except.error PyError.zeroDivisionError ∧
      enhanced_clean_data [] = Except.ok (([] : Frame),
        { original_shape := (0, 0), final_shape := (0, 0), rows_removed := 0,
          columns_removed := 0, cleaning_operations := 0, cleaning_log := [] }) := by
  refine ⟨by decide, ?_, ?_⟩
  · with_unfolding_all decide
  · with_unfolding_all decide

/-- Two-row numeric `age` column, one value out of the default
`[0, 120]` domain constraint. -/
def c3AgeFrame : Frame :=
  [{ name := "age", dtype := DType.numeric,
     cells := [Cell.q (some 30), Cell.q (some 150)] }]

/-- Two-row `lat` column, one value out of `[-90, 90]`. -/
def c3GeoFrame : Frame :=
  [{ name := "lat", dtype := DType.numeric,
     cells := [Cell.q (some 10), Cell.q (some 95)] }]

/-- **C3 (code bug)** Evaluating the code at the failing inputs: (i)
`_handle_outliers` with `action='remove'` on the column `[1,2,3,4,100]`
drops one row (5 → 4) but its log entry — built from `len(df)` *after*
the mutation — records `rows_before = rows_after = 4` and
`rows_changed = 0`; (ii) the domain-constraint filter of
`_validate_data_integrity` drops a row (2 → 1) and appends no log entry
at all (the embedded function returns only a frame because the source
contains no `log_operation` call); (iii) `_clean_geospatial` likewise
drops a row (2 → 1) with no log entry.  Each violates the claimed
"exactly one CleaningLogEntry with `rows_changed = rows_before -
rows_after`" for row-count-changing stages. -/
theorem c3_audit_divergence :
    rowCount outlierFrame = 5 ∧
      rowCount (handle_outliers "remove" outlierFrame).1 = 4 ∧
      (handle_outliers "remove" outlierFrame).2 =
        [log_operation "handle_outliers_remove"
          "Handled 1 outliers in x using iqr method" 4 4] ∧
      (log_operation "handle_outliers_remove"
        "Handled 1 outliers in x using iqr method" 4 4).rows_changed = 0 ∧
      rowCount c3AgeFrame = 2 ∧
      rowCount (validate_data_integrity c3AgeFrame) = 1 ∧
      rowCount c3GeoFrame = 2 ∧
      rowCount (clean_geospatial c3GeoFrame) = 1 := by
  refine ⟨by decide, ?_, ?_, by decide, by decide, ?_, by decide, ?_⟩
  · with_unfolding_all decide
  · with_unfolding_all decide
  · with_unfolding_all decide
  · with_unfolding_all decide

end Datalysis
